import Mathlib

/-!
Verification of the CairoSVG `surface.py` rendering core.

Shallow embedding conventions:
  * Python strings are `List Char` (`Str`); `str s` injects a Lean string literal.
  * Python floats are modelled as exact rationals `ℚ`.
  * Fallible Python code returns `Except PyErr`; `PyErr` distinguishes the
    exception classes the source can raise.
  * The cairo backend is modelled as a trace of emitted drawing calls plus the
    little state (current point, sub-path start, text cursor) the source reads
    back from it.
-/

set_option maxRecDepth 10000

namespace CairoSVG

/-- Python strings, modelled as lists of characters. -/
abbrev Str := List Char

/-- Inject a Lean string literal as a Python string. -/
def str (s : String) : Str := s.data

/-- The Python exception classes raised by the code under verification. -/
inductive PyErr
  | valueError
  | typeError
  | notImplementedError
  | attributeError
  | unboundLocal
  | zeroDivisionError
  | loadError
  | noCurrentPoint
  deriving DecidableEq, Repr

instance {ε α : Type} [DecidableEq ε] [DecidableEq α] : DecidableEq (Except ε α) :=
  fun a b =>
    match a, b with
    | .error e, .error e' => if h : e = e' then .isTrue (by rw [h]) else .isFalse (by simp [h])
    | .ok x, .ok y => if h : x = y then .isTrue (by rw [h]) else .isFalse (by simp [h])
    | .error _, .ok _ => .isFalse (by simp)
    | .ok _, .error _ => .isFalse (by simp)

/-- Whether an `Except` result is an error. -/
def isError {ε α : Type} : Except ε α → Bool
  | .error _ => true
  | .ok _ => false

/-! ### Python string primitives -/

/-- `isPre pat s` : `pat` is a prefix of `s` (Python slice comparison). -/
def isPre : Str → Str → Bool
  | [], _ => true
  | _ :: _, [] => false
  | a :: as, b :: bs => a = b && isPre as bs

/-- `containsSub pat s` : Python `pat in s` (contiguous substring test). -/
def containsSub (pat : Str) : Str → Bool
  | [] => isPre pat []
  | c :: rest => isPre pat (c :: rest) || containsSub pat rest

/-- Python `s.replace(p, tgt)` for a single-character pattern `p`: every
occurrence of `p` is rewritten to `tgt` (occurrences are disjoint, so the
sequential scan is a per-character expansion). -/
def pyReplaceChar (p : Char) (tgt : Str) (s : Str) : Str :=
  s.flatMap fun c => if c = p then tgt else [c]

/-- Python `s.replace(p, "", 1)` for a single-character pattern: remove the
first occurrence of `p`. -/
def removeFirst (p : Char) : Str → Str
  | [] => []
  | c :: rest => if c = p then rest else c :: removeFirst p rest

/-- Python `s.replace(pat, tgt)` for a pattern `p :: ps` of length ≥ 1:
non-overlapping left-to-right replacement. -/
def pyReplaceStr (p : Char) (ps tgt : Str) : Str → Str
  | [] => []
  | c :: rest =>
    if isPre (p :: ps) (c :: rest) then
      tgt ++ pyReplaceStr p ps tgt (rest.drop ps.length)
    else
      c :: pyReplaceStr p ps tgt rest
termination_by s => s.length
decreasing_by
  · simp only [List.length_cons]
    have : (rest.drop ps.length).length ≤ rest.length := by
      rw [List.length_drop]
      omega
    omega
  · simp

/-- Python `s.replace("  ", " ")`: non-overlapping left-to-right replacement
of a space pair by a single space (each match consumes both spaces). -/
def replaceSpacePair : Str → Str
  | [] => []
  | [c] => [c]
  | a :: b :: rest =>
    if a = ' ' ∧ b = ' ' then ' ' :: replaceSpacePair rest
    else a :: replaceSpacePair (b :: rest)

/-- Python `"  " in s`. -/
def hasSpacePair (s : Str) : Bool := containsSub [' ', ' '] s

/-- Python `s.lstrip(chars)`: drop the longest prefix of characters in `chars`. -/
def pyLStrip (chars : Str) (s : Str) : Str := s.dropWhile fun c => chars.contains c

/-- Python `s.rstrip(chars)`. -/
def pyRStrip (chars : Str) (s : Str) : Str :=
  ((s.reverse.dropWhile fun c => chars.contains c)).reverse

/-- Python `s.strip(chars)`. -/
def pyStrip (chars : Str) (s : Str) : Str := pyRStrip chars (pyLStrip chars s)

/-- The character class stripped by Python's default `str.strip()`. -/
def wsChars : Str := [' ', '\t', '\n', '\x0b', '\x0c', '\r']

/-- Python `s.strip()` (default whitespace strip). -/
def pyStripWS (s : Str) : Str := pyStrip wsChars s

/-- Whether a character is Python whitespace. -/
def isWS (c : Char) : Bool := wsChars.contains c

/-- Split off everything before and after the first occurrence of `sep`;
`none` when `sep` does not occur. -/
def splitFirst (sep : Char) : Str → Option (Str × Str)
  | [] => none
  | c :: rest =>
    if c = sep then some ([], rest)
    else
      match splitFirst sep rest with
      | none => none
      | some (a, b) => some (c :: a, b)

theorem splitFirst_length_lt {sep : Char} :
    ∀ {s a b : Str}, splitFirst sep s = some (a, b) → b.length < s.length := by
  intro s
  induction s with
  | nil => intro a b h; simp [splitFirst] at h
  | cons c rest ih =>
    intro a b h
    simp only [splitFirst] at h
    by_cases hc : c = sep
    · simp only [hc, if_true] at h
      cases h
      simp
    · simp only [hc, if_false] at h
      cases hr : splitFirst sep rest with
      | none => rw [hr] at h; cases h
      | some p =>
        obtain ⟨a', b'⟩ := p
        rw [hr] at h
        have := ih (a := a') (b := b') hr
        cases h
        simp only [List.length_cons]
        omega

/-- Python `s.split(sep)` for an explicit one-character separator and no
maxsplit: the list of fields (empty fields preserved). -/
def pySplitAll (sep : Char) (s : Str) : List Str :=
  match h : splitFirst sep s with
  | none => [s]
  | some (a, b) => a :: pySplitAll sep b
termination_by s.length
decreasing_by
  exact splitFirst_length_lt h

/-- Python `a, b = s.split(sep, 1)`: fails with `ValueError` when `sep` is
absent (only one field to unpack). -/
def pySplit1 (sep : Char) (s : Str) : Except PyErr (Str × Str) :=
  match splitFirst sep s with
  | none => .error .valueError
  | some p => .ok p

/-- Python `x, y, r = s.split(" ", 2)`: requires two separators (three fields). -/
def pySplit2 (s : Str) : Except PyErr (Str × Str × Str) :=
  match splitFirst ' ' s with
  | none => .error .valueError
  | some (a, rest) =>
    match splitFirst ' ' rest with
    | none => .error .valueError
    | some (b, r) => .ok (a, b, r)

/-- Accumulator-based scan implementing Python `s.split()` (no argument):
split on whitespace runs, dropping empty fields; `acc` holds the reversed
characters of the token being read. -/
def splitWSAux : Str → Str → List Str
  | [], acc => if acc.isEmpty then [] else [acc.reverse]
  | c :: rest, acc =>
    if isWS c then
      if acc.isEmpty then splitWSAux rest [] else acc.reverse :: splitWSAux rest []
    else splitWSAux rest (c :: acc)

/-- Python `s.split()` (no argument). -/
def pySplitWS (s : Str) : List Str := splitWSAux s []

/-- Python `s.isdigit()` (ASCII digits; sufficient for the inputs this code
handles). -/
def pyIsDigit (s : Str) : Bool := !s.isEmpty && s.all Char.isDigit

/-- Python `s.lower()`. -/
def pyLower (s : Str) : Str := s.map Char.toLower

/-- Numeric value of a run of decimal digits. -/
def digitsToNat (ds : Str) : ℕ := ds.foldl (fun a c => 10 * a + (c.toNat - 48)) 0

/-- Split off a leading run of decimal digits. -/
def takeDigits (s : Str) : Str × Str :=
  (s.takeWhile Char.isDigit, s.dropWhile Char.isDigit)

/-- Python `float(s)` on decimal literals: optional surrounding whitespace,
optional sign, integer and fractional digit runs (at least one digit),
optional exponent. `none` models `ValueError`. -/
def pyFloat (s : Str) : Option ℚ :=
  let s := pyStripWS s
  let (sign, s) : ℚ × Str :=
    match s with
    | '-' :: r => (-1, r)
    | '+' :: r => (1, r)
    | _ => (1, s)
  let (ip, s) := takeDigits s
  let (fp, s) :=
    match s with
    | '.' :: r => takeDigits r
    | _ => ([], s)
  if ip = [] ∧ fp = [] then none
  else
    let mant : ℚ := sign * ((digitsToNat ip : ℚ) + (digitsToNat fp : ℚ) / (10 ^ fp.length))
    match s with
    | [] => some mant
    | e :: r =>
      if e = 'e' ∨ e = 'E' then
        let (esign, r) : ℤ × Str :=
          match r with
          | '-' :: r2 => (-1, r2)
          | '+' :: r2 => (1, r2)
          | _ => (1, r)
        let (ed, r) := takeDigits r
        if ed = [] ∨ r ≠ [] then none
        else some (mant * (10 : ℚ) ^ (esign * (digitsToNat ed : ℤ)))
      else none

/-- Python `int(s, 16)` on plain hexadecimal digit runs; `none` models
`ValueError`. -/
def pyInt16 (s : Str) : Option ℕ :=
  if s.isEmpty ∨ ¬ s.all (fun c => c.isDigit ∨ ('a' ≤ c ∧ c ≤ 'f') ∨ ('A' ≤ c ∧ c ≤ 'F')) then
    none
  else
    some (s.foldl (fun a c =>
      16 * a + (if c.isDigit then c.toNat - 48
                else if 'a' ≤ c then c.toNat - 87 else c.toNat - 55)) 0)

/-! ### The value resolver (`normalize`, `size`, `color`, `point`) -/

/-- Source `DPI = 72.`. -/
def DPI : ℚ := 72

/-- Source `UNITS` table, in its insertion order; `none` models the
`NotImplemented` placeholders for `em`, `ex` and `%`. -/
def UNITS : List (Str × Option ℚ) :=
  [ (str "mm", some (DPI / 25.4)),
    (str "cm", some (DPI / 2.54)),
    (str "in", some DPI),
    (str "pt", some (DPI / 72)),
    (str "pc", some (DPI / 6)),
    (str "px", some 1),
    (str "em", none),
    (str "ex", none),
    (str "%", none) ]

/-- Source `ASCII_LETTERS`. -/
def ASCII_LETTERS : Str := str "abcdefghijklmnopqrstuvwxyzABCDEFGHIJKLMNOPQRSTUVWXYZ"

/-- The `while "  " in string` collapse loop of `normalize`, with explicit
fuel; `normalize` supplies fuel `s.length`, which suffices because each
rewrite strictly shrinks the string. -/
def collapseLoop : ℕ → Str → Str
  | 0, s => s
  | n + 1, s => if hasSpacePair s then collapseLoop n (replaceSpacePair s) else s

/-- Source `normalize`: insert a space before each `-`, rewrite commas to
spaces, then collapse space pairs until none remain. -/
def normalize (s : Str) : Str :=
  let s1 := pyReplaceChar '-' [' ', '-'] s
  let s2 := pyReplaceChar ',' [' '] s1
  collapseLoop s2.length s2

/-- The plain-numeral test of `size`:
`string.replace(".", "", 1).lstrip(" -").isdigit()`. -/
def digitCheck (s : Str) : Bool := pyIsDigit (pyLStrip [' ', '-'] (removeFirst '.' s))

/-- The unit-scan of `size`: the first `UNITS` entry whose symbol occurs in
the text. -/
def findUnit : List (Str × Option ℚ) → Str → Option (Str × Option ℚ)
  | [], _ => none
  | (u, v) :: rest, s => if containsSub u s then some (u, v) else findUnit rest s

/-- Source `size`: resolve a length string to a float. The result is
`ok none` when the Python function falls off the end (returns `None`),
`error` when it raises (`ValueError` from `float`, `TypeError` from
multiplying by `NotImplemented`). -/
def size (os : Option Str) : Except PyErr (Option ℚ) :=
  match os with
  | none => .ok (some 0)
  | some s =>
    if s.isEmpty then .ok (some 0)
    else if digitCheck s then
      match pyFloat s with
      | some q => .ok (some q)
      | none => .error .valueError
    else
      match findUnit UNITS s with
      | none => .ok none
      | some (u, v) =>
        match pyFloat (pyStrip (' ' :: u) s) with
        | none => .error .valueError
        | some q =>
          match v with
          | some factor => .ok (some (q * factor))
          | none => .error .typeError

/-- Source `point`: split off two space-separated fields, resolve each with
`size`, and return the remainder of the string untouched. -/
def point (os : Option Str) : Except PyErr (Option ℚ × Option ℚ × Str) :=
  match os with
  | none => .ok (some 0, some 0, [])
  | some s =>
    if s.isEmpty then .ok (some 0, some 0, [])
    else
      match pySplit2 s with
      | .error e => .error e
      | .ok (x, y, rest) =>
        match size (some x) with
        | .error e => .error e
        | .ok xv =>
          match size (some y) with
          | .error e => .error e
          | .ok yv => .ok (xv, yv, rest)

/-- Parse a two-character hex slice as a colour channel in `[0,1]`. -/
def hexByte (t : Str) : Except PyErr ℚ :=
  match pyInt16 t with
  | some n => .ok ((n : ℚ) / 255)
  | none => .error .valueError

/-- Source `color`: resolve a colour string and an opacity multiplier to an
RGBA tuple. `tbl` is the external `COLORS` name table. -/
def color (tbl : Str → Option Str) (os : Option Str) (opacity : ℚ) :
    Except PyErr (ℚ × ℚ × ℚ × ℚ) :=
  match os with
  | none => .ok (0, 0, 0, 0)
  | some s0 =>
    if s0.isEmpty ∨ s0 = str "none" then .ok (0, 0, 0, 0)
    else
      let s1 := pyLower (pyStripWS s0)
      let s2 := match tbl s1 with
        | some h => h
        | none => s1
      let s3 :=
        if s2.length = 4 ∨ s2.length = 5 then
          '#' :: (s2.drop 1).flatMap (fun c => [c, c])
        else s2
      match (if s3.length = 9 then
              match pyInt16 ((s3.drop 7).take 2) with
              | some n => .ok (opacity * ((n : ℚ) / 255))
              | none => .error .valueError
             else .ok opacity : Except PyErr ℚ) with
      | .error e => .error e
      | .ok op =>
        match hexByte ((s3.drop 1).take 2) with
        | .error e => .error e
        | .ok r =>
          match hexByte ((s3.drop 3).take 2) with
          | .error e => .error e
          | .ok g =>
            match hexByte ((s3.drop 5).take 2) with
            | .error e => .error e
            | .ok b => .ok (r, g, b, op)

/-! ### Lemmas about `normalize` -/

theorem replaceSpacePair_length_le (s : Str) :
    (replaceSpacePair s).length ≤ s.length := by
  induction s using replaceSpacePair.induct with
  | case1 => simp [replaceSpacePair]
  | case2 c => simp [replaceSpacePair]
  | case3 a b rest h ih =>
    simp only [replaceSpacePair, if_pos h, List.length_cons]
    omega
  | case4 a b rest h ih =>
    simp only [replaceSpacePair, if_neg h, List.length_cons]
    simp only [List.length_cons] at ih
    omega

theorem hasSpacePair_cons {a : Char} {rest : Str} :
    hasSpacePair (a :: rest) =
      (isPre [' ', ' '] (a :: rest) || hasSpacePair rest) := by
  simp [hasSpacePair, containsSub]

theorem replaceSpacePair_length_lt {s : Str} (h : hasSpacePair s = true) :
    (replaceSpacePair s).length < s.length := by
  induction s using replaceSpacePair.induct with
  | case1 => simp [hasSpacePair, containsSub, isPre] at h
  | case2 c => simp [hasSpacePair, containsSub, isPre] at h
  | case3 a b rest hab ih =>
    simp only [replaceSpacePair, if_pos hab, List.length_cons]
    have := replaceSpacePair_length_le rest
    omega
  | case4 a b rest hab ih =>
    simp only [replaceSpacePair, if_neg hab, List.length_cons]
    have hpre : isPre [' ', ' '] (a :: b :: rest) = false := by
      by_contra hcon
      rw [Bool.not_eq_false] at hcon
      simp only [isPre, Bool.and_eq_true, decide_eq_true_eq] at hcon
      exact hab ⟨hcon.1.symm, hcon.2.1.symm⟩
    have hpair : hasSpacePair (b :: rest) = true := by
      rw [hasSpacePair_cons, hpre] at h
      simpa using h
    have h2 := ih hpair
    simp only [List.length_cons] at h2
    omega

theorem collapseLoop_no_pair :
    ∀ (n : ℕ) (s : Str), s.length ≤ n → hasSpacePair (collapseLoop n s) = false := by
  intro n
  induction n with
  | zero =>
    intro s hs
    have : s = [] := List.length_eq_zero.mp (Nat.le_zero.mp hs)
    subst this
    simp [collapseLoop, hasSpacePair, containsSub, isPre]
  | succ n ih =>
    intro s hs
    cases hp : hasSpacePair s with
    | true =>
      simp only [collapseLoop, hp, if_true]
      apply ih
      have := replaceSpacePair_length_lt hp
      omega
    | false =>
      simpa [collapseLoop, hp] using hp

theorem mem_replaceSpacePair {c : Char} :
    ∀ {s : Str}, c ∈ replaceSpacePair s → c ∈ s := by
  intro s
  induction s using replaceSpacePair.induct with
  | case1 => simp [replaceSpacePair]
  | case2 d => simp [replaceSpacePair]
  | case3 a b rest hab ih =>
    intro h
    simp only [replaceSpacePair, if_pos hab] at h
    rcases List.mem_cons.mp h with h | h
    · subst h; simp [hab.1]
    · simp [ih h]
  | case4 a b rest hab ih =>
    intro h
    simp only [replaceSpacePair, if_neg hab] at h
    rcases List.mem_cons.mp h with h | h
    · simp [h]
    · have := ih h
      simp only [List.mem_cons] at this ⊢
      tauto

theorem mem_collapseLoop {c : Char} :
    ∀ {n : ℕ} {s : Str}, c ∈ collapseLoop n s → c ∈ s := by
  intro n
  induction n with
  | zero => intro s h; simpa [collapseLoop] using h
  | succ n ih =>
    intro s h
    simp only [collapseLoop] at h
    by_cases hp : hasSpacePair s = true
    · rw [if_pos hp] at h
      exact mem_replaceSpacePair (ih h)
    · rwa [if_neg hp] at h

theorem not_mem_pyReplaceChar {p : Char} {tgt : Str}
    (hc : p ∉ tgt) (s : Str) : p ∉ pyReplaceChar p tgt s := by
  intro h
  simp only [pyReplaceChar, List.mem_flatMap] at h
  obtain ⟨a, _, hmem⟩ := h
  by_cases ha : a = p
  · rw [if_pos ha] at hmem
    exact hc hmem
  · rw [if_neg ha] at hmem
    simp only [List.mem_singleton] at hmem
    exact ha hmem.symm

theorem no_comma_normalize (s : Str) : ',' ∉ normalize s := by
  intro h
  have h2 := mem_collapseLoop h
  exact not_mem_pyReplaceChar (by decide) _ h2

theorem no_pair_normalize (s : Str) : hasSpacePair (normalize s) = false := by
  unfold normalize
  exact collapseLoop_no_pair _ _ le_rfl

/-- `dashOKFrom prev s` : scanning `s` with `prev` as the character just
before it, every `-` is immediately preceded by a space. -/
def dashOKFrom (prev : Char) : Str → Bool
  | [] => true
  | c :: rest => ((c != '-') || (prev == ' ')) && dashOKFrom c rest

theorem dashOKFrom_cons {prev c : Char} {rest : Str} :
    dashOKFrom prev (c :: rest) =
      (((c != '-') || (prev == ' ')) && dashOKFrom c rest) := rfl

theorem dashOKFrom_dashReplace (s : Str) :
    ∀ prev, dashOKFrom prev (pyReplaceChar '-' [' ', '-'] s) = true := by
  induction s with
  | nil => intro prev; simp [pyReplaceChar, dashOKFrom]
  | cons c rest ih =>
    intro prev
    simp only [pyReplaceChar, List.flatMap_cons]
    by_cases hc : c = '-'
    · rw [if_pos hc]
      simp only [List.cons_append, List.nil_append, dashOKFrom_cons,
        Bool.and_eq_true, Bool.or_eq_true]
      refine ⟨Or.inl rfl, Or.inr rfl, ?_⟩
      simpa [pyReplaceChar] using ih '-'
    · rw [if_neg hc]
      simp only [List.singleton_append, dashOKFrom_cons, Bool.and_eq_true,
        Bool.or_eq_true]
      constructor
      · left
        simpa using hc
      · simpa [pyReplaceChar] using ih c

theorem dashOKFrom_commaReplace {s : Str} :
    ∀ {prev : Char}, dashOKFrom prev s = true →
      dashOKFrom (if prev = ',' then ' ' else prev)
        (pyReplaceChar ',' [' '] s) = true := by
  induction s with
  | nil => intro prev _; simp [pyReplaceChar, dashOKFrom]
  | cons c rest ih =>
    intro prev h
    rw [dashOKFrom_cons, Bool.and_eq_true] at h
    simp only [pyReplaceChar, List.flatMap_cons]
    by_cases hc : c = ','
    · rw [if_pos hc]
      have hrec := ih h.2
      rw [hc, if_pos rfl] at hrec
      simp only [List.singleton_append, dashOKFrom_cons, Bool.and_eq_true]
      refine ⟨Bool.or_eq_true _ _ |>.mpr (Or.inl rfl), ?_⟩
      simpa [pyReplaceChar] using hrec
    · rw [if_neg hc]
      have hrec := ih h.2
      rw [if_neg hc] at hrec
      simp only [List.singleton_append, dashOKFrom_cons, Bool.and_eq_true]
      refine ⟨?_, by simpa [pyReplaceChar] using hrec⟩
      rcases Bool.or_eq_true _ _ |>.mp h.1 with h1 | h1
      · exact Bool.or_eq_true _ _ |>.mpr (Or.inl h1)
      · refine Bool.or_eq_true _ _ |>.mpr (Or.inr ?_)
        simp only [beq_iff_eq] at h1
        subst h1
        simp

theorem dashOKFrom_replaceSpacePair :
    ∀ {s : Str} {prev : Char}, dashOKFrom prev s = true →
      dashOKFrom prev (replaceSpacePair s) = true := by
  intro s
  induction s using replaceSpacePair.induct with
  | case1 => intro prev h; exact h
  | case2 c => intro prev h; exact h
  | case3 a b rest hab ih =>
    intro prev h
    obtain ⟨ha, hb⟩ := hab
    subst ha; subst hb
    rw [dashOKFrom_cons, Bool.and_eq_true] at h
    rw [dashOKFrom_cons, Bool.and_eq_true] at h
    obtain ⟨h1, h2⟩ := h
    show dashOKFrom prev (' ' :: replaceSpacePair rest) = true
    rw [dashOKFrom_cons, Bool.and_eq_true]
    exact ⟨h1, ih h2.2⟩
  | case4 a b rest hab ih =>
    intro prev h
    rw [dashOKFrom_cons, Bool.and_eq_true] at h
    simp only [replaceSpacePair, if_neg hab]
    rw [dashOKFrom_cons, Bool.and_eq_true]
    exact ⟨h.1, ih h.2⟩

theorem dashOKFrom_collapseLoop :
    ∀ (n : ℕ) {s : Str} {prev : Char}, dashOKFrom prev s = true →
      dashOKFrom prev (collapseLoop n s) = true := by
  intro n
  induction n with
  | zero => intro s prev h; exact h
  | succ n ih =>
    intro s prev h
    simp only [collapseLoop]
    by_cases hp : hasSpacePair s = true
    · rw [if_pos hp]
      exact ih (dashOKFrom_replaceSpacePair h)
    · rwa [if_neg hp]

theorem dash_preceded_by_space_normalize (s : Str) :
    dashOKFrom 'x' (normalize s) = true := by
  unfold normalize
  apply dashOKFrom_collapseLoop
  have h1 := dashOKFrom_dashReplace s 'x'
  have h2 := dashOKFrom_commaReplace h1
  simpa using h2

/-! ### Lemmas about `point` and `splitFirst` -/

theorem splitFirst_append_cons {sep : Char} :
    ∀ {a : Str} (r : Str), sep ∉ a →
      splitFirst sep (a ++ sep :: r) = some (a, r) := by
  intro a
  induction a with
  | nil => intro r _; simp [splitFirst]
  | cons c rest ih =>
    intro r h
    have hc : c ≠ sep := fun hh => h (by simp [hh])
    have hrest : sep ∉ rest := fun hh => h (by simp [hh])
    simp only [List.cons_append, splitFirst, if_neg hc, List.append_eq, ih r hrest]

/-! ### Lemmas about `size` and the unit table -/

theorem findUnit_mem :
    ∀ {us : List (Str × Option ℚ)} {s u : Str} {v : Option ℚ},
      findUnit us s = some (u, v) → (u, v) ∈ us := by
  intro us
  induction us with
  | nil => intro s u v h; simp [findUnit] at h
  | cons p rest ih =>
    intro s u v h
    obtain ⟨pu, pv⟩ := p
    simp only [findUnit] at h
    by_cases hc : containsSub pu s = true
    · rw [if_pos hc] at h
      cases h
      simp
    · rw [if_neg hc] at h
      simp [ih h]

theorem findUnit_containsSub :
    ∀ {us : List (Str × Option ℚ)} {s u : Str} {v : Option ℚ},
      findUnit us s = some (u, v) → containsSub u s = true := by
  intro us
  induction us with
  | nil => intro s u v h; simp [findUnit] at h
  | cons p rest ih =>
    intro s u v h
    obtain ⟨pu, pv⟩ := p
    simp only [findUnit] at h
    by_cases hc : containsSub pu s = true
    · rw [if_pos hc] at h
      cases h
      exact hc
    · rw [if_neg hc] at h
      exact ih h

theorem mem_of_containsSub_head {c : Char} {cs s : Str}
    (h : containsSub (c :: cs) s = true) : c ∈ s := by
  induction s with
  | nil => simp [containsSub, isPre] at h
  | cons b rest ih =>
    simp only [containsSub, Bool.or_eq_true] at h
    rcases h with h | h
    · simp only [isPre, Bool.and_eq_true, decide_eq_true_eq] at h
      simp [h.1]
    · simp [ih h]

theorem mem_removeFirst {c p : Char} (hcp : c ≠ p) :
    ∀ {s : Str}, c ∈ s → c ∈ removeFirst p s := by
  intro s
  induction s with
  | nil => intro h; simp at h
  | cons b rest ih =>
    intro h
    simp only [removeFirst]
    by_cases hb : b = p
    · rw [if_pos hb]
      rcases List.mem_cons.mp h with h | h
      · exact absurd (h.trans hb) hcp
      · exact h
    · rw [if_neg hb]
      rcases List.mem_cons.mp h with h | h
      · simp [h]
      · simp [ih h]

theorem mem_pyLStrip {c : Char} {chars : Str} (hc : chars.contains c = false) :
    ∀ {s : Str}, c ∈ s → c ∈ pyLStrip chars s := by
  intro s
  induction s with
  | nil => intro h; simp at h
  | cons b rest ih =>
    intro h
    simp only [pyLStrip, List.dropWhile]
    cases hb : chars.contains b with
    | true =>
      rcases List.mem_cons.mp h with h | h
      · rw [h] at hc; rw [hc] at hb; cases hb
      · simpa [pyLStrip] using ih h
    | false => simpa using h

theorem pyIsDigit_false_of_mem {c : Char} {s : Str}
    (hmem : c ∈ s) (hc : c.isDigit = false) : pyIsDigit s = false := by
  have hall : s.all Char.isDigit = false := by
    cases hres : s.all Char.isDigit with
    | false => rfl
    | true =>
      have := (List.all_eq_true.mp hres) c hmem
      rw [hc] at this
      cases this
  simp [pyIsDigit, hall]

theorem digitCheck_false_of_mem {c : Char} {s : Str}
    (hmem : c ∈ s) (hdig : c.isDigit = false) (hdot : c ≠ '.')
    (hset : ([' ', '-'] : Str).contains c = false) :
    digitCheck s = false := by
  unfold digitCheck
  exact pyIsDigit_false_of_mem (mem_pyLStrip hset (mem_removeFirst hdot hmem)) hdig

/-! ### Claim theorems for the value resolver -/

/-- Claim C4: for every length string whose selected unit (the first entry of
the source's `UNITS` table whose symbol occurs in the string) is `em`, `ex` or
`%`, the length resolver `size` does not return a numeric value: it raises
(an unresolved-unit failure), never a silent numeric result. -/
theorem claim_C4 (s u : Str) (v : Option ℚ)
    (hfind : findUnit UNITS s = some (u, v))
    (hu : u = str "em" ∨ u = str "ex" ∨ u = str "%") :
    isError (size (some s)) = true := by
  have hmem := findUnit_mem hfind
  have hv : v = none := by
    rcases hu with hu | hu | hu <;>
      (subst hu; simp only [UNITS, List.mem_cons, Prod.mk.injEq, str] at hmem;
       rcases hmem with h | h | h | h | h | h | h | h | h <;> simp_all)
  subst hv
  have hcont := findUnit_containsSub hfind
  have hchar : ∃ c, c ∈ s ∧ c.isDigit = false ∧ c ≠ '.' ∧
      ([' ', '-'] : Str).contains c = false := by
    rcases hu with hu | hu | hu <;> subst hu
    · exact ⟨'e', mem_of_containsSub_head hcont, by decide, by decide, by decide⟩
    · exact ⟨'e', mem_of_containsSub_head hcont, by decide, by decide, by decide⟩
    · exact ⟨'%', mem_of_containsSub_head hcont, by decide, by decide, by decide⟩
  obtain ⟨c, hmem', hdig, hdot, hset⟩ := hchar
  have hne : s.isEmpty = false := by
    cases s with
    | nil => simp at hmem'
    | cons a rest => simp
  have hdc := digitCheck_false_of_mem hmem' hdig hdot hset
  simp only [size, hne, hdc, hfind, Bool.false_eq_true, if_false]
  cases pyFloat (pyStrip (' ' :: u) s) <;> simp [isError]

/-- Witness for C4 at the concrete inputs "2em" and "50%" from the claim. -/
theorem claim_C4_witness :
    isError (size (some (str "2em"))) = true ∧
    isError (size (some (str "50%"))) = true :=
  ⟨claim_C4 (str "2em") (str "em") none (by with_unfolding_all rfl) (Or.inl rfl),
   claim_C4 (str "50%") (str "%") none (by with_unfolding_all rfl)
     (Or.inr (Or.inr rfl))⟩

/-- `hasWSPair s` : `s` contains two consecutive Python-whitespace characters. -/
def hasWSPair : Str → Bool
  | [] => false
  | [_] => false
  | a :: b :: rest => (isWS a && isWS b) || hasWSPair (b :: rest)

/-- Claim C3 counterexample: `normalize` leaves the tab pair of `"\t\t"`
untouched, so its result contains two consecutive whitespace characters and
the tab run is not collapsed to a single space. -/
theorem claim_C3_counterexample :
    normalize (str "\t\t") = str "\t\t" ∧
    hasWSPair (normalize (str "\t\t")) = true := by
  refine ⟨?_, ?_⟩ <;> with_unfolding_all rfl

/-- Claim C3, amended: `normalize` inserts a space before each `-`
(`"-1-2"` becomes `" -1 -2"`, so it tokenizes as `-1`, `-2`), replaces every
comma by a space, and collapses runs of space characters (not arbitrary
whitespace) to a single space: the result never contains a comma or two
consecutive space characters, and every `-` in it is immediately preceded by
a space. -/
theorem claim_C3 (s : Str) :
    ',' ∉ normalize s ∧
    hasSpacePair (normalize s) = false ∧
    dashOKFrom 'x' (normalize s) = true ∧
    normalize (str "-1-2") = str " -1 -2" :=
  ⟨no_comma_normalize s, no_pair_normalize s,
   dash_preceded_by_space_normalize s, by with_unfolding_all rfl⟩

/-- Claim C2 counterexample: `"10 20"` holds two whitespace/comma-separated
numeric tokens, yet `point` raises `ValueError` instead of returning
`(10.0, 20.0, "")`: the split demands two separator spaces. -/
theorem claim_C2_counterexample :
    point (some (str "10 20")) = .error .valueError := by
  with_unfolding_all rfl

/-- Claim C2, amended: for every input string of the shape
`a ++ " " ++ b ++ " " ++ r` whose first two fields `a` and `b` contain no
space, `point` consumes exactly those two fields, resolves each as a Length,
and returns the remainder `r` verbatim; `point("10 20 rest")` returns
`(10.0, 20.0, "rest")` and `point(None)` returns `(0, 0, "")`. Inputs with
fewer than two space separators — including a bare two-token `"10 20"` or a
comma-separated `"10,20 30"` — raise `ValueError` instead. -/
theorem claim_C2 :
    (∀ (a b r : Str) (xv yv : Option ℚ), ' ' ∉ a → ' ' ∉ b →
      size (some a) = .ok xv → size (some b) = .ok yv →
      point (some (a ++ ' ' :: (b ++ ' ' :: r))) = .ok (xv, yv, r)) ∧
    point (some (str "10 20 rest")) = .ok (some 10, some 20, str "rest") ∧
    point none = .ok (some 0, some 0, []) ∧
    point (some (str "10,20 30")) = .error .valueError := by
  refine ⟨?_, by with_unfolding_all rfl, by with_unfolding_all rfl,
    by with_unfolding_all rfl⟩
  intro a b r xv yv ha hb hxa hyb
  have hne : (a ++ ' ' :: (b ++ ' ' :: r)).isEmpty = false := by
    cases a <;> simp
  have hsplit : pySplit2 (a ++ ' ' :: (b ++ ' ' :: r)) = .ok (a, b, r) := by
    simp only [pySplit2, splitFirst_append_cons _ ha, splitFirst_append_cons _ hb]
  simp only [point, hne, Bool.false_eq_true, if_false, hsplit, hxa, hyb]

/-- Witness for the amended C2 at `a = "10"`, `b = "20"`, `r = "x y"`. -/
theorem claim_C2_witness :
    point (some (str "10 20 x y")) = .ok (some 10, some 20, str "x y") := by
  have h := claim_C2.1 (str "10") (str "20") (str "x y") (some 10) (some 20)
    (by decide) (by decide) (by with_unfolding_all rfl) (by with_unfolding_all rfl)
  exact h

/-- Claim C8: for every unit with a numeric conversion factor and every
representative numeral `v` in `{0, 1, -3.5, 100}`, `size` maps `"{v}{unit}"`
to `v` times the factor (`mm = 72/25.4`, `cm = 72/2.54`, `in = 72`, `pt = 1`,
`pc = 12`, `px = 1`); the empty and absent strings resolve to 0 and the
plain numeral `"42"` to 42. -/
theorem claim_C8 :
    size (some (str "0mm")) = .ok (some ((0 : ℚ) * (72 / 25.4))) ∧
    size (some (str "1mm")) = .ok (some ((1 : ℚ) * (72 / 25.4))) ∧
    size (some (str "-3.5mm")) = .ok (some ((-3.5 : ℚ) * (72 / 25.4))) ∧
    size (some (str "100mm")) = .ok (some ((100 : ℚ) * (72 / 25.4))) ∧
    size (some (str "0cm")) = .ok (some ((0 : ℚ) * (72 / 2.54))) ∧
    size (some (str "1cm")) = .ok (some ((1 : ℚ) * (72 / 2.54))) ∧
    size (some (str "-3.5cm")) = .ok (some ((-3.5 : ℚ) * (72 / 2.54))) ∧
    size (some (str "100cm")) = .ok (some ((100 : ℚ) * (72 / 2.54))) ∧
    size (some (str "0in")) = .ok (some ((0 : ℚ) * 72)) ∧
    size (some (str "1in")) = .ok (some ((1 : ℚ) * 72)) ∧
    size (some (str "-3.5in")) = .ok (some ((-3.5 : ℚ) * 72)) ∧
    size (some (str "100in")) = .ok (some ((100 : ℚ) * 72)) ∧
    size (some (str "0pt")) = .ok (some ((0 : ℚ) * 1)) ∧
    size (some (str "1pt")) = .ok (some ((1 : ℚ) * 1)) ∧
    size (some (str "-3.5pt")) = .ok (some ((-3.5 : ℚ) * 1)) ∧
    size (some (str "100pt")) = .ok (some ((100 : ℚ) * 1)) ∧
    size (some (str "0pc")) = .ok (some ((0 : ℚ) * 12)) ∧
    size (some (str "1pc")) = .ok (some ((1 : ℚ) * 12)) ∧
    size (some (str "-3.5pc")) = .ok (some ((-3.5 : ℚ) * 12)) ∧
    size (some (str "100pc")) = .ok (some ((100 : ℚ) * 12)) ∧
    size (some (str "0px")) = .ok (some ((0 : ℚ) * 1)) ∧
    size (some (str "1px")) = .ok (some ((1 : ℚ) * 1)) ∧
    size (some (str "-3.5px")) = .ok (some ((-3.5 : ℚ) * 1)) ∧
    size (some (str "100px")) = .ok (some ((100 : ℚ) * 1)) ∧
    size (some (str "")) = .ok (some 0) ∧
    size none = .ok (some 0) ∧
    size (some (str "42")) = .ok (some 42) := by
  refine ⟨?_, ?_, ?_, ?_, ?_, ?_, ?_, ?_, ?_, ?_, ?_, ?_, ?_, ?_, ?_, ?_,
    ?_, ?_, ?_, ?_, ?_, ?_, ?_, ?_, ?_, ?_, ?_⟩ <;> with_unfolding_all rfl

/-- Claim C9: `color` maps an absent value and `"none"` to the fully
transparent tuple, expands the 3-digit form `#f00` to opaque red, and for the
9-character form `#ff000080` multiplies the alpha byte `128/255` into the
supplied opacity multiplier (default 1). `tbl` is the external colour-name
table; the hex literals are not names, so their lookups miss. -/
theorem claim_C9 (tbl : Str → Option Str)
    (h1 : tbl (str "#f00") = none) (h2 : tbl (str "#ff000080") = none) :
    color tbl none 1 = .ok (0, 0, 0, 0) ∧
    color tbl (some (str "none")) 1 = .ok (0, 0, 0, 0) ∧
    color tbl (some (str "#f00")) 1 = .ok (1, 0, 0, 1) ∧
    ∀ o : ℚ, color tbl (some (str "#ff000080")) o = .ok (1, 0, 0, o * (128 / 255)) := by
  refine ⟨by with_unfolding_all rfl, by with_unfolding_all rfl, ?_, ?_⟩
  · simp only [color]
    rw [if_neg (by decide)]
    rw [show pyLower (pyStripWS (str "#f00")) = str "#f00" by with_unfolding_all rfl, h1]
    with_unfolding_all rfl
  · intro o
    simp only [color]
    rw [if_neg (by decide)]
    rw [show pyLower (pyStripWS (str "#ff000080")) = str "#ff000080" by
      with_unfolding_all rfl, h2]
    with_unfolding_all rfl

/-- Witness for C9 with the empty colour table and opacity 1. -/
theorem claim_C9_witness :
    color (fun _ => none) (some (str "#f00")) 1 = .ok (1, 0, 0, 1) ∧
    color (fun _ => none) (some (str "#ff000080")) 1 = .ok (1, 0, 0, 1 * (128 / 255)) :=
  ⟨(claim_C9 (fun _ => none) rfl rfl).2.2.1,
   (claim_C9 (fun _ => none) rfl rfl).2.2.2 1⟩

/-! ### The cairo backend model

The backend is modelled as a trace of emitted drawing calls plus the small
amount of state the source reads back: the current point, the current
sub-path start (for `close_path`) and the surface's `cursor_position`
attribute. Coordinates recorded in the trace are the arguments as passed by
the source (user-space values). -/

/-- Backend drawing calls emitted by the renderer. `arc` omits its two angle
arguments because the source always passes the constants `0` and `2*pi`. -/
inductive Ev
  | save
  | restore
  | move_to (x y : ℚ)
  | rel_move_to (dx dy : ℚ)
  | line_to (x y : ℚ)
  | rel_line_to (dx dy : ℚ)
  | curve_to (x1 y1 x2 y2 x3 y3 : ℚ)
  | rel_curve_to (dx1 dy1 dx2 dy2 dx3 dy3 : ℚ)
  | close_path
  | arc (cx cy r : ℚ)
  | set_matrix (xx yx xy yy x0 y0 : ℚ)
  | scale (sx sy : ℚ)
  | translate (tx ty : ℚ)
  | set_line_width (w : ℚ)
  | set_source_rgba (r g b a : ℚ)
  | stroke_preserve
  | fill
  | set_fill_rule_evenodd
  | select_font_face (family : Str) (slant weight : ℕ)
  | set_font_size (sz : ℚ)
  | show_text (t : Str)
  | text_path (t : Str)
  deriving DecidableEq, Repr

/-- Backend state observable by the renderer: the call trace, cairo's
current point and sub-path start, and the surface's `cursor_position`
attribute (`none` while the attribute has never been assigned). -/
structure SState where
  trace : List Ev
  cp : Option (ℚ × ℚ)
  start : Option (ℚ × ℚ)
  cursor : Option (ℚ × ℚ)
  deriving DecidableEq, Repr

/-- Outcome of a stateful step: normal completion, a propagating Python
exception (with the backend state at raise time), or fuel exhaustion (the
source loops for ever on such inputs). -/
inductive Out (α : Type)
  | ok (s : SState) (a : α)
  | err (s : SState) (e : PyErr)
  | fuel

/-- The error of an outcome, when it is one. -/
def errOf {α : Type} : Out α → Option PyErr
  | .err _ e => some e
  | _ => none

/-- The final state of a successful outcome. -/
def okState {α : Type} : Out α → Option SState
  | .ok s _ => some s
  | _ => none

/-- Append one backend call to the trace. -/
def emit (s : SState) (e : Ev) : SState := { s with trace := s.trace ++ [e] }

/-- cairo `move_to`: sets the current point and begins a new sub-path. -/
def ctxMoveTo (s : SState) (x y : ℚ) : SState :=
  { emit s (.move_to x y) with cp := some (x, y), start := some (x, y) }

/-- cairo `line_to`: with no current point it behaves like `move_to`. -/
def ctxLineTo (s : SState) (x y : ℚ) : SState :=
  { emit s (.line_to x y) with
    cp := some (x, y)
    start := if s.start = none then some (x, y) else s.start }

/-- cairo `curve_to`. -/
def ctxCurveTo (s : SState) (x1 y1 x2 y2 x3 y3 : ℚ) : SState :=
  { emit s (.curve_to x1 y1 x2 y2 x3 y3) with
    cp := some (x3, y3)
    start := if s.start = none then some (x3, y3) else s.start }

/-- cairo `close_path`: the current point returns to the sub-path start. -/
def ctxClosePath (s : SState) : SState :=
  { emit s .close_path with cp := if s.start = none then s.cp else s.start }

/-- cairo `arc` as called by this code (angles 0 to 2π): the current point
ends at `(cx + r, cy)`. -/
def ctxArc (s : SState) (cx cy r : ℚ) : SState :=
  { emit s (.arc cx cy r) with
    cp := some (cx + r, cy)
    start := if s.start = none then some (cx + r, cy) else s.start }

/-- cairo relative operations raise when there is no current point. -/
def ctxRelMoveTo (s : SState) (dx dy : ℚ) : Out Unit :=
  match s.cp with
  | none => .err s .noCurrentPoint
  | some (x, y) =>
    .ok ({ emit s (.rel_move_to dx dy) with
           cp := some (x + dx, y + dy)
           start := some (x + dx, y + dy) }) ()

def ctxRelLineTo (s : SState) (dx dy : ℚ) : Out Unit :=
  match s.cp with
  | none => .err s .noCurrentPoint
  | some (x, y) =>
    .ok ({ emit s (.rel_line_to dx dy) with cp := some (x + dx, y + dy) }) ()

def ctxRelCurveTo (s : SState) (dx1 dy1 dx2 dy2 dx3 dy3 : ℚ) : Out Unit :=
  match s.cp with
  | none => .err s .noCurrentPoint
  | some (x, y) =>
    .ok ({ emit s (.rel_curve_to dx1 dy1 dx2 dy2 dx3 dy3) with
           cp := some (x + dx3, y + dy3) }) ()

/-! ### The Transform Composer (`draw`, lines 149-168) -/

/-- One iteration step of the value-tokenizing `while transformation:` loop:
split off the first space-separated field, resolve it with `size`, repeat. -/
def tokVals (s : Str) : Except PyErr (List (Option ℚ)) :=
  if s.isEmpty then .ok []
  else
    match h : splitFirst ' ' s with
    | none => .error .valueError
    | some (v, rest) =>
      match size (some v) with
      | .error e => .error e
      | .ok q =>
        match tokVals rest with
        | .error e => .error e
        | .ok qs => .ok (q :: qs)
termination_by s.length
decreasing_by exact splitFirst_length_lt h

/-- `transformation.replace(ttype, "")` for the operation name `tt`. -/
def stripOpName (tt seg : Str) : Str :=
  match tt with
  | [] => seg
  | c :: cs => pyReplaceStr c cs [] seg

/-- The values of one transform segment: strip the operation name and the
opening parenthesis, normalize, strip whitespace, append a space, and
tokenize. -/
def segValues (tt seg : Str) : Except PyErr (List (Option ℚ)) :=
  tokVals (pyStripWS (normalize (pyReplaceChar '(' [] (stripOpName tt seg))) ++ [' '])

/-- `cairo.Matrix(*values)` followed by `set_matrix`: requires exactly six
non-`None` values, otherwise `TypeError`. -/
def applyMatrixVals (vals : List (Option ℚ)) : Except PyErr Ev :=
  match vals with
  | [some a, some b, some c, some d, some e, some f] => .ok (.set_matrix a b c d e f)
  | _ => .error .typeError

/-- `getattr(self.context, ttype)(*values)` for `scale`/`translate`: a single
value is duplicated for both axes; the call then requires exactly two
non-`None` arguments. -/
def applyScaleTranslate (tt : Str) (vals : List (Option ℚ)) : Except PyErr Ev :=
  let vals := if vals.length = 1 then vals ++ vals else vals
  match vals with
  | [some x, some y] =>
    .ok (if tt = str "scale" then .scale x y else .translate x y)
  | _ => .error .typeError

/-- Process one `)`-separated segment: the first of `scale`, `translate`,
`matrix` whose name occurs in the segment is executed (the source's inner
`for ttype in ...` loop leaves the residual string empty, so at most one
operation fires per segment); segments naming none of them are skipped.
Each firing segment issues exactly one backend call. -/
def segOps (seg : Str) : Except PyErr (List Ev) :=
  if containsSub (str "scale") seg then
    match segValues (str "scale") seg with
    | .error e => .error e
    | .ok vals =>
      match applyScaleTranslate (str "scale") vals with
      | .error e => .error e
      | .ok ev => .ok [ev]
  else if containsSub (str "translate") seg then
    match segValues (str "translate") seg with
    | .error e => .error e
    | .ok vals =>
      match applyScaleTranslate (str "translate") vals with
      | .error e => .error e
      | .ok ev => .ok [ev]
  else if containsSub (str "matrix") seg then
    match segValues (str "matrix") seg with
    | .error e => .error e
    | .ok vals =>
      match applyMatrixVals vals with
      | .error e => .error e
      | .ok ev => .ok [ev]
  else .ok []

/-- All operations of a transform attribute, in left-to-right source order
(`split(")")` preserves segment order and each segment is applied as it is
parsed). -/
def transformOps (t : Str) : Except PyErr (List Ev) :=
  go (pySplitAll ')' t)
where
  go : List Str → Except PyErr (List Ev)
    | [] => .ok []
    | seg :: rest =>
      match segOps seg with
      | .error e => .error e
      | .ok evs =>
        match go rest with
        | .error e => .error e
        | .ok more => .ok (evs ++ more)

/-- A cairo matrix (the backend's current transformation matrix). -/
structure Mat where
  xx : ℚ
  yx : ℚ
  xy : ℚ
  yy : ℚ
  x0 : ℚ
  y0 : ℚ
  deriving DecidableEq, Repr

/-- The identity CTM. -/
def idMat : Mat := ⟨1, 0, 0, 1, 0, 0⟩

/-- cairo's CTM update for the three transform calls this code emits:
`set_matrix` replaces the CTM outright; `scale` and `translate` compose with
it (append the operation in user space). Other calls leave the CTM alone. -/
def applyTransformEv (m : Mat) : Ev → Mat
  | .set_matrix a b c d e f => ⟨a, b, c, d, e, f⟩
  | .scale sx sy => ⟨m.xx * sx, m.yx * sx, m.xy * sy, m.yy * sy, m.x0, m.y0⟩
  | .translate tx ty =>
    ⟨m.xx, m.yx, m.xy, m.yy, m.xx * tx + m.xy * ty + m.x0, m.yx * tx + m.yy * ty + m.y0⟩
  | _ => m

/-- Apply a list of transform calls in order. -/
def applyTransformEvs (m : Mat) (evs : List Ev) : Mat := evs.foldl applyTransformEv m

/-- Claim C7: `matrix(...)` with its 6 values replaces the CTM outright
(`set_matrix`, a set — for any prior CTM the result is the given matrix,
independent of the prior value); `scale`/`translate` issue the corresponding
single backend call, duplicating a single supplied value for both axes
(`scale(2)` emits `scale(2, 2)`, which scales an identity CTM uniformly by
2); segments are emitted and applied in left-to-right source order. -/
theorem claim_C7 :
    transformOps (str "scale(2)") = .ok [.scale 2 2] ∧
    transformOps (str "matrix(1,0,0,1,5,5)") = .ok [.set_matrix 1 0 0 1 5 5] ∧
    transformOps (str "translate(1 2) scale(3)") = .ok [.translate 1 2, .scale 3 3] ∧
    (∀ (m : Mat) (a b c d e f : ℚ),
      applyTransformEv m (.set_matrix a b c d e f) = ⟨a, b, c, d, e, f⟩) ∧
    applyTransformEvs idMat [.scale 2 2] = ⟨2, 0, 0, 2, 0, 0⟩ ∧
    (∀ m : Mat, applyTransformEvs m [.set_matrix 1 0 0 1 5 5] = ⟨1, 0, 0, 1, 5, 5⟩) ∧
    (∀ v : ℚ, applyScaleTranslate (str "scale") [some v] = .ok (.scale v v)) ∧
    (∀ v : ℚ, applyScaleTranslate (str "translate") [some v] = .ok (.translate v v)) := by
  refine ⟨by with_unfolding_all rfl, by with_unfolding_all rfl,
    by with_unfolding_all rfl, ?_, ?_, ?_, ?_, ?_⟩
  · intro m a b c d e f
    rfl
  · with_unfolding_all rfl
  · intro m
    rfl
  · intro v
    rfl
  · intro v
    rfl

/-- Witness for C7's quantified parts at concrete inputs. -/
theorem claim_C7_witness :
    applyTransformEv ⟨9, 8, 7, 6, 5, 4⟩ (.set_matrix 1 0 0 1 5 5) = ⟨1, 0, 0, 1, 5, 5⟩ ∧
    applyScaleTranslate (str "scale") [some 2] = .ok (.scale 2 2) :=
  ⟨claim_C7.2.2.2.1 ⟨9, 8, 7, 6, 5, 4⟩ 1 0 0 1 5 5,
   claim_C7.2.2.2.2.2.2.1 2⟩

/-! ### The Path Interpreter (`Surface.path`, lines 206-299) -/

/-- The Python locals of the path loop: the current and previous command
letters and the control-point locals `x2 y2 x3 y3`. The outer `Option` is
`none` while the local has never been assigned (reading it raises); the
inner value is the `size` result, which may itself be Python `None`. -/
structure PathLocals where
  letter : Option Str
  lastLetter : Option Str
  x2 : Option (Option ℚ)
  y2 : Option (Option ℚ)
  x3 : Option (Option ℚ)
  y3 : Option (Option ℚ)
  deriving DecidableEq, Repr

/-- Path-loop locals before the first iteration (`last_letter = None`). -/
def initLocals : PathLocals := ⟨none, none, none, none, none, none⟩

/-- The source expression `x1 = x3 - x2 if last_letter in test else fallback`
(`test` is `"cs"` for `s`, `"CS"` for `S`; `fallback` is 0 for `s` and the
current-point coordinate for `S`). `None in "cs"` raises `TypeError`;
reading a never-assigned local raises; subtracting a `None` size raises. -/
def reflectCtrl (test : Str) (lastLetter : Option Str)
    (a3 a2 : Option (Option ℚ)) (fallback : ℚ) : Except PyErr ℚ :=
  match lastLetter with
  | none => .error .typeError
  | some ll =>
    if containsSub ll test then
      match a3, a2 with
      | some (some q3), some (some q2) => .ok (q3 - q2)
      | some _, some _ => .error .typeError
      | _, _ => .error .unboundLocal
    else .ok fallback
/-- Advance the loop locals after a branch: `last_letter = letter`. -/
def advanceLocals (L : PathLocals) (letter : Str) : PathLocals :=
  { L with letter := some letter, lastLetter := some letter }

/-- The `c` branch: three points, `rel_curve_to`. -/
def piCmdRelCurve (s : SState) (string letter : Str) (L : PathLocals) :
    Out (Str × PathLocals) :=
  let L' := advanceLocals L letter
  match point (some string) with
  | .error e => .err s e
  | .ok (x1, y1, s1) =>
  match point (some s1) with
  | .error e => .err s e
  | .ok (x2, y2, s2) =>
  match point (some s2) with
  | .error e => .err s e
  | .ok (x3, y3, s3) =>
  match x1, y1, x2, y2, x3, y3 with
  | some a1, some b1, some a2, some b2, some a3, some b3 =>
    match ctxRelCurveTo s a1 b1 a2 b2 a3 b3 with
    | .ok s' _ =>
      .ok s' (s3, { L' with x2 := some x2, y2 := some y2, x3 := some x3, y3 := some y3 })
    | .err s' e => .err s' e
    | .fuel => .fuel
  | _, _, _, _, _, _ => .err s .typeError

/-- The `C` branch: three points, `curve_to`. -/
def piCmdAbsCurve (s : SState) (string letter : Str) (L : PathLocals) :
    Out (Str × PathLocals) :=
  let L' := advanceLocals L letter
  match point (some string) with
  | .error e => .err s e
  | .ok (x1, y1, s1) =>
  match point (some s1) with
  | .error e => .err s e
  | .ok (x2, y2, s2) =>
  match point (some s2) with
  | .error e => .err s e
  | .ok (x3, y3, s3) =>
  match x1, y1, x2, y2, x3, y3 with
  | some a1, some b1, some a2, some b2, some a3, some b3 =>
    .ok (ctxCurveTo s a1 b1 a2 b2 a3 b3)
      (s3, { L' with x2 := some x2, y2 := some y2, x3 := some x3, y3 := some y3 })
  | _, _, _, _, _, _ => .err s .typeError

/-- The `h` branch: one length, relative horizontal line. -/
def piCmdRelHLine (s : SState) (string letter : Str) (L : PathLocals) :
    Out (Str × PathLocals) :=
  let L' := advanceLocals L letter
  match pySplit1 ' ' string with
  | .error e => .err s e
  | .ok (x, s1) =>
  match size (some x) with
  | .error e => .err s e
  | .ok xv =>
  match xv with
  | none => .err s .typeError
  | some q =>
    match ctxRelLineTo s q 0 with
    | .ok s' _ => .ok s' (s1, L')
    | .err s' e => .err s' e
    | .fuel => .fuel

/-- The first `V` branch (line 242): one length, absolute `line_to(x, 0)`. -/
def piCmdVLine (s : SState) (string letter : Str) (L : PathLocals) :
    Out (Str × PathLocals) :=
  let L' := advanceLocals L letter
  match pySplit1 ' ' string with
  | .error e => .err s e
  | .ok (x, s1) =>
  match size (some x) with
  | .error e => .err s e
  | .ok xv =>
  match xv with
  | none => .err s .typeError
  | some q => .ok (ctxLineTo s q 0) (s1, L')

/-- The `l` branch: one point, `rel_line_to`. -/
def piCmdRelLine (s : SState) (string letter : Str) (L : PathLocals) :
    Out (Str × PathLocals) :=
  let L' := advanceLocals L letter
  match point (some string) with
  | .error e => .err s e
  | .ok (x, y, s1) =>
  match x, y with
  | some a, some b =>
    match ctxRelLineTo s a b with
    | .ok s' _ => .ok s' (s1, L')
    | .err s' e => .err s' e
    | .fuel => .fuel
  | _, _ => .err s .typeError

/-- The `L` branch: one point, `line_to`. -/
def piCmdAbsLine (s : SState) (string letter : Str) (L : PathLocals) :
    Out (Str × PathLocals) :=
  let L' := advanceLocals L letter
  match point (some string) with
  | .error e => .err s e
  | .ok (x, y, s1) =>
  match x, y with
  | some a, some b => .ok (ctxLineTo s a b) (s1, L')
  | _, _ => .err s .typeError

/-- The `m` branch: one point, `rel_move_to`. -/
def piCmdRelMove (s : SState) (string letter : Str) (L : PathLocals) :
    Out (Str × PathLocals) :=
  let L' := advanceLocals L letter
  match point (some string) with
  | .error e => .err s e
  | .ok (x, y, s1) =>
  match x, y with
  | some a, some b =>
    match ctxRelMoveTo s a b with
    | .ok s' _ => .ok s' (s1, L')
    | .err s' e => .err s' e
    | .fuel => .fuel
  | _, _ => .err s .typeError

/-- The `M` branch: one point, `move_to`. -/
def piCmdAbsMove (s : SState) (string letter : Str) (L : PathLocals) :
    Out (Str × PathLocals) :=
  let L' := advanceLocals L letter
  match point (some string) with
  | .error e => .err s e
  | .ok (x, y, s1) =>
  match x, y with
  | some a, some b => .ok (ctxMoveTo s a b) (s1, L')
  | _, _ => .err s .typeError

/-- The `S` branch: reflect about the current point when the previous letter
was `C` or `S` (otherwise use the current point itself), two more points,
absolute curve. Reads `last_letter` before this iteration updates it. -/
def piCmdSmoothAbs (s : SState) (string letter : Str) (L : PathLocals) :
    Out (Str × PathLocals) :=
  let L' := advanceLocals L letter
  match reflectCtrl (str "CS") L.lastLetter L.x3 L.x2 ((s.cp).getD (0, 0)).1 with
  | .error e => .err s e
  | .ok x1q =>
  match reflectCtrl (str "CS") L.lastLetter L.y3 L.y2 ((s.cp).getD (0, 0)).2 with
  | .error e => .err s e
  | .ok y1q =>
  match point (some string) with
  | .error e => .err s e
  | .ok (x2, y2, s1) =>
  match point (some s1) with
  | .error e => .err s e
  | .ok (x3, y3, s2) =>
  match x2, y2, x3, y3 with
  | some a2, some b2, some a3, some b3 =>
    .ok (ctxCurveTo s x1q y1q a2 b2 a3 b3)
      (s2, { L' with x2 := some x2, y2 := some y2, x3 := some x3, y3 := some y3 })
  | _, _, _, _ => .err s .typeError

/-- The `s` branch: reflect only when the previous letter was lowercase `c`
or `s` (otherwise `(0, 0)`), two more points, relative curve. Reads
`last_letter` before this iteration updates it. -/
def piCmdSmoothRel (s : SState) (string letter : Str) (L : PathLocals) :
    Out (Str × PathLocals) :=
  let L' := advanceLocals L letter
  match reflectCtrl (str "cs") L.lastLetter L.x3 L.x2 0 with
  | .error e => .err s e
  | .ok x1q =>
  match reflectCtrl (str "cs") L.lastLetter L.y3 L.y2 0 with
  | .error e => .err s e
  | .ok y1q =>
  match point (some string) with
  | .error e => .err s e
  | .ok (x2, y2, s1) =>
  match point (some s1) with
  | .error e => .err s e
  | .ok (x3, y3, s2) =>
  match x2, y2, x3, y3 with
  | some a2, some b2, some a3, some b3 =>
    match ctxRelCurveTo s x1q y1q a2 b2 a3 b3 with
    | .ok s' _ =>
      .ok s' (s2, { L' with x2 := some x2, y2 := some y2, x3 := some x3, y3 := some y3 })
    | .err s' e => .err s' e
    | .fuel => .fuel
  | _, _, _, _ => .err s .typeError

/-- The `v` branch: one length, relative vertical line. -/
def piCmdRelVLine (s : SState) (string letter : Str) (L : PathLocals) :
    Out (Str × PathLocals) :=
  let L' := advanceLocals L letter
  match pySplit1 ' ' string with
  | .error e => .err s e
  | .ok (y, s1) =>
  match size (some y) with
  | .error e => .err s e
  | .ok yv =>
  match yv with
  | none => .err s .typeError
  | some q =>
    match ctxRelLineTo s 0 q with
    | .ok s' _ => .ok s' (s1, L')
    | .err s' e => .err s' e
    | .fuel => .fuel

/-- One dispatch of the path interpreter on the current command `letter`
(source lines 226-297): execute the command branch, returning the updated
backend state, remaining string and locals. Branches appear in source order;
the source second `V` branch (line 283) is dead code shadowed by the first
(line 242). An unhandled letter raises `NotImplementedError`. -/
def piStep (s : SState) (string : Str) (letter : Str) (L : PathLocals) :
    Out (Str × PathLocals) :=
  if letter = str "c" then piCmdRelCurve s string letter L
  else if letter = str "C" then piCmdAbsCurve s string letter L
  else if letter = str "h" then piCmdRelHLine s string letter L
  else if letter = str "V" then piCmdVLine s string letter L
  else if letter = str "l" then piCmdRelLine s string letter L
  else if letter = str "L" then piCmdAbsLine s string letter L
  else if letter = str "m" then piCmdRelMove s string letter L
  else if letter = str "M" then piCmdAbsMove s string letter L
  else if letter = str "S" then piCmdSmoothAbs s string letter L
  else if letter = str "s" then piCmdSmoothRel s string letter L
  else if letter = str "v" then piCmdRelVLine s string letter L
  else if letter = str "X" then .ok s ([], advanceLocals L letter)
  else if pyLower letter = str "z" then .ok (ctxClosePath s) (string, advanceLocals L letter)
  else .err s .notImplementedError


/-- The letter-consumption step at the top of each loop iteration
(lines 223-225): if the first space-separated token of the stripped string
occurs in `ASCII_LETTERS` (the source's substring `in` test), consume it as
the new command letter; otherwise keep the previous `letter` local (which
may never have been assigned). -/
def piSelect (string1 : Str) (L : PathLocals) : Except PyErr (Option Str × Str) :=
  let tok :=
    match splitFirst ' ' string1 with
    | some (a, _) => a
    | none => string1
  if containsSub tok ASCII_LETTERS then
    match pySplit1 ' ' string1 with
    | .error e => .error e
    | .ok (l, rest) => .ok (some l, rest)
  else .ok (L.letter, string1)

/-- The path interpreter's `while string:` loop, with fuel (the source loop
can run for ever, e.g. a `z` followed by a number token repeats `z` without
consuming input). Each iteration strips the string, selects the command
letter (`UnboundLocalError` when none has ever been consumed), dispatches
through `piStep` and strips the remainder. -/
def piLoop : ℕ → SState → Str → PathLocals → Out Unit
  | 0, _, _, _ => .fuel
  | n + 1, s, string, L =>
    if string.isEmpty then .ok s ()
    else
      match piSelect (pyStripWS string) L with
      | .error e => .err s e
      | .ok (letterOpt, string2) =>
        match letterOpt with
        | none => .err s .unboundLocal
        | some letter =>
          match piStep s string2 letter L with
          | .ok s' (string3, L') => piLoop n s' (pyStripWS string3) L'
          | .err s' e => .err s' e
          | .fuel => .fuel

/-! ### The node tree and the tag handlers -/

/-- A parsed document node: tag, attribute mapping, ordered children,
optional text, and the root flag (true only for the outermost element). -/
structure Node where
  tag : Str
  attrs : List (Str × Str)
  children : List Node
  text : Option Str
  root : Bool

/-- Attribute lookup (Python `node.get(key)` / `node[key]`). -/
def lookupA : List (Str × Str) → Str → Option Str
  | [], _ => none
  | (k, v) :: rest, key => if k = key then some v else lookupA rest key

/-- Attribute assignment (Python `node[key] = v`). -/
def setA : List (Str × Str) → Str → Str → List (Str × Str)
  | [], key, v => [(key, v)]
  | (k, w) :: rest, key, v =>
    if k = key then (k, v) :: rest else (k, w) :: setA rest key v

/-- Attribute deletion (Python `del node[key]`). -/
def delA : List (Str × Str) → Str → List (Str × Str)
  | [], _ => []
  | (k, v) :: rest, key => if k = key then rest else (k, v) :: delA rest key

def Node.get (n : Node) (k : Str) : Option Str := lookupA n.attrs k

def Node.set (n : Node) (k v : Str) : Node := { n with attrs := setA n.attrs k v }

def Node.del (n : Node) (k : Str) : Node := { n with attrs := delA n.attrs k }

def Node.has (n : Node) (k : Str) : Bool := (lookupA n.attrs k).isSome

/-- Python truthiness of an optional string (`not node.get(...)`). -/
def strFalsy : Option Str → Bool
  | none => true
  | some s => s.isEmpty

/-- cairo `text_extents` result. -/
structure TextExtents where
  x_bearing : ℚ
  y_bearing : ℚ
  width : ℚ
  height : ℚ
  x_advance : ℚ
  y_advance : ℚ
  deriving DecidableEq, Repr

/-- The external collaborators: the backend's font-metric query (abstracted
on the text; the font state it also depends on is folded into the oracle),
the sub-document loader behind `Tree(href, node)`, and the `COLORS`
name table. -/
structure Backend where
  textExtents : Str → TextExtents
  load : Str → Option Node
  colors : Str → Option Str

/-- Return the (possibly mutated) node alongside a unit-valued handler's
outcome — the Python handlers mutate the node in place and return `None`. -/
def keepNode (node : Node) : Out Unit → Out Node
  | .ok s _ => .ok s node
  | .err s e => .err s e
  | .fuel => .fuel

/-- `Surface.path` (lines 206-221): default the stroke width, append the
`"XX"` sentinel, pad every ASCII letter with spaces (the source's 52
single-character replacements are disjoint, hence one pass), normalize, and
run the loop with unassigned locals. -/
def pathTag (n : ℕ) (s : SState) (node : Node) : Out Node :=
  let node :=
    if strFalsy (node.get (str "stroke-width")) then
      node.set (str "stroke-width") (str "1")
    else node
  let d0 := (node.get (str "d")).getD []
  let string := pyStripWS d0 ++ str "XX"
  let string := string.flatMap fun c => if c.isAlpha then [' ', c, ' '] else [c]
  let string := normalize string
  keepNode node (piLoop n s string initLocals)

/-- `Surface.circle`: `arc(x+cx, y+cy, r, 0, 2π)`; adding a `None` length
or passing one to `arc` raises `TypeError`. -/
def circleTag (s : SState) (node : Node) : Out Unit :=
  match size (node.get (str "x")) with
  | .error e => .err s e
  | .ok xv =>
  match size (node.get (str "cx")) with
  | .error e => .err s e
  | .ok cxv =>
  match xv, cxv with
  | some x, some cx =>
    match size (node.get (str "y")) with
    | .error e => .err s e
    | .ok yv =>
    match size (node.get (str "cy")) with
    | .error e => .err s e
    | .ok cyv =>
    match yv, cyv with
    | some y, some cy =>
      match size (node.get (str "r")) with
      | .error e => .err s e
      | .ok rv =>
      match rv with
      | none => .err s .typeError
      | some r => .ok (ctxArc s (x + cx) (y + cy) r) ()
    | _, _ => .err s .typeError
  | _, _ => .err s .typeError

/-- `Surface.line`: `move_to(x1, y1)` then `line_to(x2, y2)`. -/
def lineTag (s : SState) (node : Node) : Out Unit :=
  match size (node.get (str "x1")) with
  | .error e => .err s e
  | .ok x1v =>
  match size (node.get (str "y1")) with
  | .error e => .err s e
  | .ok y1v =>
  match size (node.get (str "x2")) with
  | .error e => .err s e
  | .ok x2v =>
  match size (node.get (str "y2")) with
  | .error e => .err s e
  | .ok y2v =>
  match x1v, y1v with
  | some x1, some y1 =>
    let s := ctxMoveTo s x1 y1
    match x2v, y2v with
    | some x2, some y2 => .ok (ctxLineTo s x2 y2) ()
    | _, _ => .err s .typeError
  | _, _ => .err s .typeError

/-- `getattr(cairo, ("font_slant_%s" % v).upper(), FONT_SLANT_NORMAL)`:
0 = normal, 1 = italic, 2 = oblique; anything else (including an absent
attribute) falls back to normal. -/
def fontSlant (st : Option Str) : ℕ :=
  match st with
  | none => 0
  | some t => if pyLower t = str "italic" then 1 else if pyLower t = str "oblique" then 2 else 0

/-- `getattr(cairo, ("font_weight_%s" % v).upper(), FONT_WEIGHT_NORMAL)`:
0 = normal, 1 = bold. -/
def fontWeight (st : Option Str) : ℕ :=
  match st with
  | none => 0
  | some t => if pyLower t = str "bold" then 1 else 0

/-- `float(node.get("opacity", 1))` and friends. -/
def parseOpacityAttr (v : Option Str) : Except PyErr ℚ :=
  match v with
  | none => .ok 1
  | some t =>
    match pyFloat t with
    | some q => .ok q
    | none => .error .valueError

/-- `Surface.text` (lines 318-360): default the fill to black, strip the
text, resolve the font, measure extents, apply the anchor shift, draw the
filled text, trace it as a path, force the node's own fill transparent, and
record the backend's current point as the shared text cursor. -/
def textTag (B : Backend) (s : SState) (node : Node) : Out Node :=
  let node :=
    if strFalsy (node.get (str "fill")) then node.set (str "fill") (str "#000000")
    else node
  let ntext : Str :=
    match node.text with
    | some t => if t.isEmpty then [] else pyStrip ['\n', '\r'] t
    | none => []
  let node := { node with text := some ntext }
  match size (some ((node.get (str "font-size")).getD (str "12pt"))) with
  | .error e => .err s e
  | .ok fsv =>
  let family := (node.get (str "font-family")).getD (str "Sans")
  let s := emit s (.select_font_face family (fontSlant (node.get (str "font-style")))
    (fontWeight (node.get (str "font-weight"))))
  match fsv with
  | none => .err s .typeError
  | some fs =>
  let s := emit s (.set_font_size fs)
  let ext := B.textExtents ntext
  match size (node.get (str "x")) with
  | .error e => .err s e
  | .ok xv =>
  match size (node.get (str "y")) with
  | .error e => .err s e
  | .ok yv =>
  let anchor := node.get (str "text-anchor")
  match (if anchor = some (str "middle") then
           match xv with
           | some q => .ok (some (q - (ext.width / 2 + ext.x_bearing)))
           | none => .error .typeError
         else if anchor = some (str "end") then
           match xv with
           | some q => .ok (some (q - (ext.width + ext.x_bearing)))
           | none => .error .typeError
         else .ok xv : Except PyErr (Option ℚ)) with
  | .error e => .err s e
  | .ok xv' =>
  match parseOpacityAttr (node.get (str "opacity")) with
  | .error e => .err s e
  | .ok opacity =>
  match xv', yv with
  | some x, some y =>
    let s := ctxMoveTo s x y
    match color B.colors (node.get (str "fill")) opacity with
    | .error e => .err s e
    | .ok (r, g, b, a) =>
    let s := emit s (.set_source_rgba r g b a)
    let s := { emit s (.show_text ntext) with cp := some (x + ext.x_advance, y + ext.y_advance) }
    let s := ctxMoveTo s x y
    let s := { emit s (.text_path ntext) with cp := some (x + ext.x_advance, y + ext.y_advance) }
    let node := node.set (str "fill") (str "#00000000")
    let s := { s with cursor := some ((s.cp).getD (0, 0)) }
    .ok s node
  | _, _ => .err s .typeError

/-- Fractional decimal digits of `r / d` (long division), capped. -/
def fracDigits : ℕ → ℕ → ℕ → Str
  | 0, _, _ => []
  | _ + 1, 0, _ => []
  | n + 1, r, d => Char.ofNat (48 + (r * 10) / d) :: fracDigits n ((r * 10) % d) d

/-- Python `str(float)` for the values this code writes back into attribute
strings: sign, integer digits, decimal point, fractional digits (exact for
terminating decimals — every binary float prints one — capped at 17 digits
like float repr; integers print a trailing `.0`). -/
def pyStrOfRat (q : ℚ) : Str :=
  let sign : Str := if q < 0 then ['-'] else []
  let n := q.num.natAbs
  let d := q.den
  let frac := if n % d = 0 then ['0'] else fracDigits 17 (n % d) d
  sign ++ Nat.toDigits 10 (n / d) ++ '.' :: frac

/-- `Surface.tspan` (lines 308-316): read the shared text cursor — an
`AttributeError` if no `text` handler has ever run on this surface — then
override with explicit `x`/`y`, add the `dx`/`dy` offsets, write the result
back into the node and delegate to the `text` handler. -/
def tspanTag (B : Backend) (s : SState) (node : Node) : Out Node :=
  match s.cursor with
  | none => .err s .attributeError
  | some (ccx, ccy) =>
    match (if node.has (str "x") then size (node.get (str "x"))
           else .ok (some ccx) : Except PyErr (Option ℚ)) with
    | .error e => .err s e
    | .ok xv =>
    match (if node.has (str "y") then size (node.get (str "y"))
           else .ok (some ccy) : Except PyErr (Option ℚ)) with
    | .error e => .err s e
    | .ok yv =>
    match size (node.get (str "dx")) with
    | .error e => .err s e
    | .ok dxv =>
    match xv, dxv with
    | some x, some dx =>
      let node := node.set (str "x") (pyStrOfRat (x + dx))
      match size (node.get (str "dy")) with
      | .error e => .err s e
      | .ok dyv =>
      match yv, dyv with
      | some y, some dy =>
        let node := node.set (str "y") (pyStrOfRat (y + dy))
        textTag B s node
      | _, _ => .err s .typeError
    | _, _ => .err s .typeError

/-- Resolve each whitespace-separated field of a `viewBox` with `size`. -/
def sizeListVals : List Str → Except PyErr (List (Option ℚ))
  | [] => .ok []
  | p :: rest =>
    match size (some p) with
    | .error e => .error e
    | .ok q =>
      match sizeListVals rest with
      | .error e => .error e
      | .ok qs => .ok (q :: qs)

/-- `Surface._set_context_size` (lines 127-134): with a viewBox, default
missing (falsy) width/height to the viewBox extent, scale by the ratios and
translate by the negated origin. -/
def setCtxSize (s : SState) (w h : Option ℚ) (viewbox : Option Str) : Out Unit :=
  match viewbox with
  | none => .ok s ()
  | some vb =>
    if vb.isEmpty then .ok s ()
    else
      match sizeListVals (pySplitWS vb) with
      | .error e => .err s e
      | .ok vals =>
        match vals with
        | [x, y, xs, ys] =>
          let w' := match w with
            | none => xs
            | some q => if q = 0 then xs else some q
          let h' := match h with
            | none => ys
            | some q => if q = 0 then ys else some q
          match w', xs with
          | some wq, some xsq =>
            if xsq = 0 then .err s .zeroDivisionError
            else
              match h', ys with
              | some hq, some ysq =>
                if ysq = 0 then .err s .zeroDivisionError
                else
                  let s := emit s (.scale (wq / xsq) (hq / ysq))
                  match x, y with
                  | some xq, some yq => .ok (emit s (.translate (-xq) (-yq))) ()
                  | _, _ => .err s .typeError
              | _, _ => .err s .typeError
          | _, _ => .err s .typeError
        | _ => .err s .valueError

/-- `Surface.use` (lines 362-375): translate, drop the consumed `x`/`y`,
resolve the reference through the loader, apply the referenced document's
viewBox scaling and recurse into it (`recur` is the enclosing `draw`). A
missing reference attribute raises (`os.path.join` with `None`). -/
def useTag (B : Backend) (recur : SState → Node → Out Unit) (s : SState) (node : Node) :
    Out Node :=
  match size (node.get (str "x")) with
  | .error e => .err s e
  | .ok xv =>
  match size (node.get (str "y")) with
  | .error e => .err s e
  | .ok yv =>
  match xv, yv with
  | some tx, some ty =>
    let s := emit s (.translate tx ty)
    let node := node.del (str "x")
    let node := node.del (str "y")
    match node.get (str "{http://www.w3.org/1999/xlink}href") with
    | none => .err s .typeError
    | some href =>
      match B.load href with
      | none => .err s .loadError
      | some tree =>
        match size (tree.get (str "width")) with
        | .error e => .err s e
        | .ok tw =>
        match size (tree.get (str "height")) with
        | .error e => .err s e
        | .ok th =>
        match setCtxSize s tw th (tree.get (str "viewBox")) with
        | .err s' e => .err s' e
        | .fuel => .fuel
        | .ok s' _ =>
          match recur s' tree with
          | .ok s'' _ => .ok s'' node
          | .err s'' e => .err s'' e
          | .fuel => .fuel
  | _, _ => .err s .typeError

/-! ### The Tree Renderer (`Surface.draw`, lines 143-197) -/

/-- Non-handler attributes of the surface object that `hasattr` finds, whose
"call" with a node argument raises `TypeError` (wrong arity or not
callable). Dunder attributes are omitted: no document tag carries such a
name. -/
def surfaceAttrNames : List Str :=
  [str "read", str "bytesio", str "cairo", str "context",
   str "_create_surface", str "_set_context_size"]

/-- Apply the transform attribute segment by segment, emitting each
segment's single backend call as it is parsed. -/
def drawTransformSegs (s : SState) : List Str → Out Unit
  | [] => .ok s ()
  | seg :: rest =>
    match segOps seg with
    | .error e => .err s e
    | .ok evs => drawTransformSegs (evs.foldl emit s) rest

/-- The first half of `draw`: `move_to(size(x), size(y))` and the transform
block. -/
def drawPrelude (s : SState) (node : Node) : Out Unit :=
  match size (node.get (str "x")) with
  | .error e => .err s e
  | .ok xv =>
  match size (node.get (str "y")) with
  | .error e => .err s e
  | .ok yv =>
  match xv, yv with
  | some x, some y =>
    let s := ctxMoveTo s x y
    match node.get (str "transform") with
    | none => .ok s ()
    | some t =>
      if t.isEmpty then .ok s ()
      else drawTransformSegs s (pySplitAll ')' t)
  | _, _ => .err s .typeError

/-- The `hasattr(self, node.tag)`/`getattr(self, node.tag)(node)` dispatch:
the six tag handlers, plus the surface's other attributes — including
`draw` itself, which recurses, and `cursor_position`, which exists only
after a `text` handler has run. Unknown tags are a no-op. Returns the
(possibly mutated) node. -/
def drawDispatch (B : Backend) (n : ℕ) (recur : SState → Node → Out Unit)
    (s : SState) (node : Node) : Out Node :=
  if node.tag = str "circle" then keepNode node (circleTag s node)
  else if node.tag = str "path" then pathTag n s node
  else if node.tag = str "line" then keepNode node (lineTag s node)
  else if node.tag = str "tspan" then tspanTag B s node
  else if node.tag = str "text" then textTag B s node
  else if node.tag = str "use" then useTag B recur s node
  else if node.tag = str "draw" then keepNode node (recur s node)
  else if surfaceAttrNames.contains node.tag then .err s .typeError
  else if node.tag = str "cursor_position" then
    if s.cursor.isSome then .err s .typeError else .ok s node
  else .ok s node

/-- The paint half of `draw` (lines 174-188): opacity products, line width,
stroke colour, `stroke_preserve`, optional even-odd fill rule, fill colour,
and `fill` (which consumes the path and clears the current point). -/
def drawPaint (B : Backend) (s : SState) (node : Node) : Out Unit :=
  match parseOpacityAttr (node.get (str "opacity")) with
  | .error e => .err s e
  | .ok opacity =>
  match parseOpacityAttr (node.get (str "stroke-opacity")) with
  | .error e => .err s e
  | .ok so =>
  match parseOpacityAttr (node.get (str "fill-opacity")) with
  | .error e => .err s e
  | .ok fo =>
  match size (node.get (str "stroke-width")) with
  | .error e => .err s e
  | .ok swv =>
  match swv with
  | none => .err s .typeError
  | some sw =>
  let s := emit s (.set_line_width sw)
  match color B.colors (node.get (str "stroke")) (opacity * so) with
  | .error e => .err s e
  | .ok (r1, g1, b1, a1) =>
  let s := emit s (.set_source_rgba r1 g1 b1 a1)
  let s := emit s .stroke_preserve
  let s :=
    if node.get (str "fill-rule") = some (str "evenodd") then emit s .set_fill_rule_evenodd
    else s
  match color B.colors (node.get (str "fill")) (opacity * fo) with
  | .error e => .err s e
  | .ok (r2, g2, b2, a2) =>
  let s := emit s (.set_source_rgba r2 g2 b2 a2)
  .ok ({ emit s .fill with cp := none, start := none }) ()

/-- The `for child in node.children: self.draw(child)` accumulator: keep
drawing while the previous child succeeded, and propagate the first error
or fuel exhaustion. -/
def childStep (f : SState → Node → Out Unit) (acc : Out Unit) (c : Node) : Out Unit :=
  match acc with
  | .ok sc _ => f sc c
  | other => other

/-- `Surface.draw`, with fuel: unconditionally `save`, run the prelude, the
tag dispatch and the paint block, draw the children in document order, then
`restore` only when the node is not the document root (the handlers mutate
only attributes and text, so the original node's children and root flag are
the mutated node's as well). There is no exception handler: an error from
any phase propagates immediately, skipping every remaining restore. -/
def drawFuel (B : Backend) : ℕ → SState → Node → Out Unit
  | 0, _, _ => .fuel
  | n + 1, s, node =>
    let s := emit s .save
    match drawPrelude s node with
    | .err s' e => .err s' e
    | .fuel => .fuel
    | .ok s' _ =>
      match drawDispatch B n (drawFuel B n) s' node with
      | .err s'' e => .err s'' e
      | .fuel => .fuel
      | .ok s'' node' =>
        match drawPaint B s'' node' with
        | .err s3 e => .err s3 e
        | .fuel => .fuel
        | .ok s3 _ =>
          match node.children.foldl (childStep (drawFuel B n)) (Out.ok s3 ()) with
          | .err s4 e => .err s4 e
          | .fuel => .fuel
          | .ok s4 _ =>
            if node.root then .ok s4 () else .ok (emit s4 .restore) ()

/-- A concrete trivial backend for closed evaluations: zero text extents, a
loader that finds nothing, an empty colour table. -/
def trivialBackend : Backend :=
  { textExtents := fun _ => ⟨0, 0, 0, 0, 0, 0⟩
    load := fun _ => none
    colors := fun _ => none }

/-- The empty initial backend state. -/
def initState : SState := ⟨[], none, none, none⟩

/-! ### Save/restore counting (for the graphics-state stack discipline) -/

def isSave : Ev → Bool
  | .save => true
  | _ => false

def isRestore : Ev → Bool
  | .restore => true
  | _ => false

/-- Number of `save` calls in a trace. -/
def saves (t : List Ev) : ℕ := (t.filter isSave).length

/-- Number of `restore` calls in a trace. -/
def restores (t : List Ev) : ℕ := (t.filter isRestore).length

/-- `s'` has the same save and restore counts as `s`. -/
def SRFree (s s' : SState) : Prop :=
  saves s'.trace = saves s.trace ∧ restores s'.trace = restores s.trace

/-- `s'` keeps at least as many unmatched saves as `s`
(the save delta dominates the restore delta). -/
def SRGe (s s' : SState) : Prop :=
  saves s'.trace + restores s.trace ≥ restores s'.trace + saves s.trace

/-- `s'` holds strictly more unmatched saves than `s`. -/
def SRGt (s s' : SState) : Prop :=
  saves s'.trace + restores s.trace > restores s'.trace + saves s.trace

/-- The state an outcome leaves the backend in (also on error). -/
def finalSt {α : Type} : Out α → Option SState
  | .ok s _ => some s
  | .err s _ => some s
  | .fuel => none

/-- Every state the outcome can leave behind has unchanged counts. -/
def CountsEq {α : Type} (o : Out α) (s : SState) : Prop :=
  ∀ s', finalSt o = some s' → SRFree s s'

/-- Every state the outcome can leave behind dominates in unmatched saves. -/
def CountsGe {α : Type} (o : Out α) (s : SState) : Prop :=
  ∀ s', finalSt o = some s' → SRGe s s'

theorem saves_append (t u : List Ev) : saves (t ++ u) = saves t + saves u := by
  simp [saves, List.filter_append]

theorem restores_append (t u : List Ev) : restores (t ++ u) = restores t + restores u := by
  simp [restores, List.filter_append]

theorem srfree_trans {s1 s2 s3 : SState} (h1 : SRFree s1 s2) (h2 : SRFree s2 s3) :
    SRFree s1 s3 := by
  obtain ⟨a, b⟩ := h1
  obtain ⟨c, d⟩ := h2
  exact ⟨by omega, by omega⟩

theorem srfree_ge {s s' : SState} (h : SRFree s s') : SRGe s s' := by
  obtain ⟨a, b⟩ := h
  simp only [SRGe]
  omega

theorem srge_trans {s1 s2 s3 : SState} (h1 : SRGe s1 s2) (h2 : SRGe s2 s3) :
    SRGe s1 s3 := by
  simp only [SRGe] at *
  omega

theorem srfree_srge_trans {s1 s2 s3 : SState} (h1 : SRFree s1 s2) (h2 : SRGe s2 s3) :
    SRGe s1 s3 :=
  srge_trans (srfree_ge h1) h2

theorem countsEq_ge {α : Type} {o : Out α} {s : SState} (h : CountsEq o s) :
    CountsGe o s := fun s' hs' => srfree_ge (h s' hs')

/-! Counts preservation of the path-command branches: none of them issues a
`save` or a `restore`. -/

theorem piCmdRelCurve_counts (s : SState) (string letter : Str) (L : PathLocals) :
    CountsEq (piCmdRelCurve s string letter L) s := by
  intro sF hst
  cases hcp : s.cp with
  | none =>
    unfold piCmdRelCurve at hst
    simp only [ctxRelCurveTo, hcp] at hst
    repeat' split at hst
    all_goals try simp only [finalSt, Option.some.injEq] at hst
    all_goals try subst hst
    all_goals
      simp_all [finalSt, SRFree, saves_append, restores_append, saves, restores,
        isSave, isRestore, emit]
  | some p =>
    obtain ⟨px, py⟩ := p
    unfold piCmdRelCurve at hst
    simp only [ctxRelCurveTo, hcp] at hst
    repeat' split at hst
    all_goals try simp only [finalSt, Option.some.injEq] at hst
    all_goals try subst hst
    all_goals
      simp_all [finalSt, SRFree, saves_append, restores_append, saves, restores,
        isSave, isRestore, emit]

theorem piCmdAbsCurve_counts (s : SState) (string letter : Str) (L : PathLocals) :
    CountsEq (piCmdAbsCurve s string letter L) s := by
  intro sF hst
  unfold piCmdAbsCurve at hst
  repeat' split at hst
  all_goals try simp only [finalSt, Option.some.injEq] at hst
  all_goals try subst hst
  all_goals
    simp_all [finalSt, SRFree, ctxCurveTo, saves_append, restores_append, saves,
      restores, isSave, isRestore, emit]

theorem piCmdRelHLine_counts (s : SState) (string letter : Str) (L : PathLocals) :
    CountsEq (piCmdRelHLine s string letter L) s := by
  intro sF hst
  cases hcp : s.cp with
  | none =>
    unfold piCmdRelHLine at hst
    simp only [ctxRelLineTo, hcp] at hst
    repeat' split at hst
    all_goals try simp only [finalSt, Option.some.injEq] at hst
    all_goals try subst hst
    all_goals
      simp_all [finalSt, SRFree, saves_append, restores_append, saves, restores,
        isSave, isRestore, emit]
  | some p =>
    obtain ⟨px, py⟩ := p
    unfold piCmdRelHLine at hst
    simp only [ctxRelLineTo, hcp] at hst
    repeat' split at hst
    all_goals try simp only [finalSt, Option.some.injEq] at hst
    all_goals try subst hst
    all_goals
      simp_all [finalSt, SRFree, saves_append, restores_append, saves, restores,
        isSave, isRestore, emit]

theorem piCmdVLine_counts (s : SState) (string letter : Str) (L : PathLocals) :
    CountsEq (piCmdVLine s string letter L) s := by
  intro sF hst
  unfold piCmdVLine at hst
  repeat' split at hst
  all_goals try simp only [finalSt, Option.some.injEq] at hst
  all_goals try subst hst
  all_goals
    simp_all [finalSt, SRFree, ctxLineTo, saves_append, restores_append, saves,
      restores, isSave, isRestore, emit]

theorem piCmdRelLine_counts (s : SState) (string letter : Str) (L : PathLocals) :
    CountsEq (piCmdRelLine s string letter L) s := by
  intro sF hst
  cases hcp : s.cp with
  | none =>
    unfold piCmdRelLine at hst
    simp only [ctxRelLineTo, hcp] at hst
    repeat' split at hst
    all_goals try simp only [finalSt, Option.some.injEq] at hst
    all_goals try subst hst
    all_goals
      simp_all [finalSt, SRFree, saves_append, restores_append, saves, restores,
        isSave, isRestore, emit]
  | some p =>
    obtain ⟨px, py⟩ := p
    unfold piCmdRelLine at hst
    simp only [ctxRelLineTo, hcp] at hst
    repeat' split at hst
    all_goals try simp only [finalSt, Option.some.injEq] at hst
    all_goals try subst hst
    all_goals
      simp_all [finalSt, SRFree, saves_append, restores_append, saves, restores,
        isSave, isRestore, emit]

theorem piCmdAbsLine_counts (s : SState) (string letter : Str) (L : PathLocals) :
    CountsEq (piCmdAbsLine s string letter L) s := by
  intro sF hst
  unfold piCmdAbsLine at hst
  repeat' split at hst
  all_goals try simp only [finalSt, Option.some.injEq] at hst
  all_goals try subst hst
  all_goals
    simp_all [finalSt, SRFree, ctxLineTo, saves_append, restores_append, saves,
      restores, isSave, isRestore, emit]

theorem piCmdRelMove_counts (s : SState) (string letter : Str) (L : PathLocals) :
    CountsEq (piCmdRelMove s string letter L) s := by
  intro sF hst
  cases hcp : s.cp with
  | none =>
    unfold piCmdRelMove at hst
    simp only [ctxRelMoveTo, hcp] at hst
    repeat' split at hst
    all_goals try simp only [finalSt, Option.some.injEq] at hst
    all_goals try subst hst
    all_goals
      simp_all [finalSt, SRFree, saves_append, restores_append, saves, restores,
        isSave, isRestore, emit]
  | some p =>
    obtain ⟨px, py⟩ := p
    unfold piCmdRelMove at hst
    simp only [ctxRelMoveTo, hcp] at hst
    repeat' split at hst
    all_goals try simp only [finalSt, Option.some.injEq] at hst
    all_goals try subst hst
    all_goals
      simp_all [finalSt, SRFree, saves_append, restores_append, saves, restores,
        isSave, isRestore, emit]

theorem piCmdAbsMove_counts (s : SState) (string letter : Str) (L : PathLocals) :
    CountsEq (piCmdAbsMove s string letter L) s := by
  intro sF hst
  unfold piCmdAbsMove at hst
  repeat' split at hst
  all_goals try simp only [finalSt, Option.some.injEq] at hst
  all_goals try subst hst
  all_goals
    simp_all [finalSt, SRFree, ctxMoveTo, saves_append, restores_append, saves,
      restores, isSave, isRestore, emit]

theorem piCmdSmoothAbs_counts (s : SState) (string letter : Str) (L : PathLocals) :
    CountsEq (piCmdSmoothAbs s string letter L) s := by
  intro sF hst
  unfold piCmdSmoothAbs at hst
  cases h1 : reflectCtrl (str "CS") L.lastLetter L.x3 L.x2 ((s.cp).getD (0, 0)).1 with
  | error e1 =>
    rw [h1] at hst
    simp only [finalSt, Option.some.injEq] at hst
    subst hst
    exact ⟨rfl, rfl⟩
  | ok x1q =>
    rw [h1] at hst
    cases h2 : reflectCtrl (str "CS") L.lastLetter L.y3 L.y2 ((s.cp).getD (0, 0)).2 with
    | error e2 =>
      rw [h2] at hst
      simp only [finalSt, Option.some.injEq] at hst
      subst hst
      exact ⟨rfl, rfl⟩
    | ok y1q =>
      rw [h2] at hst
      repeat' split at hst
      all_goals try simp only [finalSt, Option.some.injEq] at hst
      all_goals try subst hst
      all_goals
        simp_all [finalSt, SRFree, ctxCurveTo, saves_append, restores_append, saves,
          restores, isSave, isRestore, emit]

theorem piCmdSmoothRel_counts (s : SState) (string letter : Str) (L : PathLocals) :
    CountsEq (piCmdSmoothRel s string letter L) s := by
  intro sF hst
  cases hcp : s.cp with
  | none =>
    unfold piCmdSmoothRel at hst
    simp only [ctxRelCurveTo, hcp] at hst
    repeat' split at hst
    all_goals try simp only [finalSt, Option.some.injEq] at hst
    all_goals try subst hst
    all_goals
      simp_all [finalSt, SRFree, saves_append, restores_append, saves, restores,
        isSave, isRestore, emit]
  | some p =>
    obtain ⟨px, py⟩ := p
    unfold piCmdSmoothRel at hst
    simp only [ctxRelCurveTo, hcp] at hst
    repeat' split at hst
    all_goals try simp only [finalSt, Option.some.injEq] at hst
    all_goals try subst hst
    all_goals
      simp_all [finalSt, SRFree, saves_append, restores_append, saves, restores,
        isSave, isRestore, emit]

theorem piCmdRelVLine_counts (s : SState) (string letter : Str) (L : PathLocals) :
    CountsEq (piCmdRelVLine s string letter L) s := by
  intro sF hst
  cases hcp : s.cp with
  | none =>
    unfold piCmdRelVLine at hst
    simp only [ctxRelLineTo, hcp] at hst
    repeat' split at hst
    all_goals try simp only [finalSt, Option.some.injEq] at hst
    all_goals try subst hst
    all_goals
      simp_all [finalSt, SRFree, saves_append, restores_append, saves, restores,
        isSave, isRestore, emit]
  | some p =>
    obtain ⟨px, py⟩ := p
    unfold piCmdRelVLine at hst
    simp only [ctxRelLineTo, hcp] at hst
    repeat' split at hst
    all_goals try simp only [finalSt, Option.some.injEq] at hst
    all_goals try subst hst
    all_goals
      simp_all [finalSt, SRFree, saves_append, restores_append, saves, restores,
        isSave, isRestore, emit]

theorem piStep_counts (s : SState) (string letter : Str) (L : PathLocals) :
    CountsEq (piStep s string letter L) s := by
  intro sF hst
  unfold piStep at hst
  by_cases h1 : letter = str "c"
  case pos => rw [if_pos h1] at hst; exact piCmdRelCurve_counts s string letter L sF hst
  rw [if_neg h1] at hst
  by_cases h2 : letter = str "C"
  case pos => rw [if_pos h2] at hst; exact piCmdAbsCurve_counts s string letter L sF hst
  rw [if_neg h2] at hst
  by_cases h3 : letter = str "h"
  case pos => rw [if_pos h3] at hst; exact piCmdRelHLine_counts s string letter L sF hst
  rw [if_neg h3] at hst
  by_cases h4 : letter = str "V"
  case pos => rw [if_pos h4] at hst; exact piCmdVLine_counts s string letter L sF hst
  rw [if_neg h4] at hst
  by_cases h5 : letter = str "l"
  case pos => rw [if_pos h5] at hst; exact piCmdRelLine_counts s string letter L sF hst
  rw [if_neg h5] at hst
  by_cases h6 : letter = str "L"
  case pos => rw [if_pos h6] at hst; exact piCmdAbsLine_counts s string letter L sF hst
  rw [if_neg h6] at hst
  by_cases h7 : letter = str "m"
  case pos => rw [if_pos h7] at hst; exact piCmdRelMove_counts s string letter L sF hst
  rw [if_neg h7] at hst
  by_cases h8 : letter = str "M"
  case pos => rw [if_pos h8] at hst; exact piCmdAbsMove_counts s string letter L sF hst
  rw [if_neg h8] at hst
  by_cases h9 : letter = str "S"
  case pos => rw [if_pos h9] at hst; exact piCmdSmoothAbs_counts s string letter L sF hst
  rw [if_neg h9] at hst
  by_cases h10 : letter = str "s"
  case pos => rw [if_pos h10] at hst; exact piCmdSmoothRel_counts s string letter L sF hst
  rw [if_neg h10] at hst
  by_cases h11 : letter = str "v"
  case pos => rw [if_pos h11] at hst; exact piCmdRelVLine_counts s string letter L sF hst
  rw [if_neg h11] at hst
  by_cases h12 : letter = str "X"
  case pos =>
    rw [if_pos h12] at hst
    simp only [finalSt, Option.some.injEq] at hst
    subst hst
    exact ⟨rfl, rfl⟩
  rw [if_neg h12] at hst
  by_cases h13 : pyLower letter = str "z"
  case pos =>
    rw [if_pos h13] at hst
    simp only [finalSt, Option.some.injEq] at hst
    subst hst
    simp [SRFree, ctxClosePath, saves_append, restores_append, saves, restores,
      isSave, isRestore, emit]
  rw [if_neg h13] at hst
  simp only [finalSt, Option.some.injEq] at hst
  subst hst
  exact ⟨rfl, rfl⟩

theorem piLoop_counts :
    ∀ (n : ℕ) (s : SState) (string : Str) (L : PathLocals),
      CountsEq (piLoop n s string L) s := by
  intro n
  induction n with
  | zero =>
    intro s string L sF hst
    simp [piLoop, finalSt] at hst
  | succ n ih =>
    intro s string L sF hst
    unfold piLoop at hst
    split at hst
    · simp only [finalSt, Option.some.injEq] at hst
      subst hst
      exact ⟨rfl, rfl⟩
    · cases hsel : piSelect (pyStripWS string) L with
      | error e =>
        rw [hsel] at hst
        simp only [finalSt, Option.some.injEq] at hst
        subst hst
        exact ⟨rfl, rfl⟩
      | ok pr =>
        obtain ⟨letterOpt, string2⟩ := pr
        rw [hsel] at hst
        cases letterOpt with
        | none =>
          simp only [finalSt, Option.some.injEq] at hst
          subst hst
          exact ⟨rfl, rfl⟩
        | some letter =>
          cases hstep : piStep s string2 letter L with
          | ok s1 pr2 =>
            obtain ⟨string3, L1⟩ := pr2
            simp only [hstep] at hst
            exact srfree_trans
              (piStep_counts s string2 letter L s1 (by rw [hstep]; rfl))
              (ih s1 (pyStripWS string3) L1 sF hst)
          | err s1 e =>
            simp only [hstep, finalSt, Option.some.injEq] at hst
            subst hst
            exact piStep_counts s string2 letter L _ (by rw [hstep]; rfl)
          | fuel =>
            simp only [hstep, finalSt] at hst
            cases hst

theorem keepNode_counts {s : SState} {o : Out Unit} (node : Node)
    (h : CountsEq o s) : CountsEq (keepNode node o) s := by
  intro sF hst
  cases o with
  | ok s1 u =>
    simp only [keepNode, finalSt, Option.some.injEq] at hst
    subst hst
    exact h s1 rfl
  | err s1 e =>
    simp only [keepNode, finalSt, Option.some.injEq] at hst
    subst hst
    exact h s1 rfl
  | fuel => simp [keepNode, finalSt] at hst

theorem pathTag_counts (n : ℕ) (s : SState) (node : Node) :
    CountsEq (pathTag n s node) s := by
  unfold pathTag
  split
  all_goals exact keepNode_counts _ (piLoop_counts n s _ initLocals)

theorem circleTag_counts (s : SState) (node : Node) :
    CountsEq (circleTag s node) s := by
  intro sF hst
  unfold circleTag at hst
  repeat' split at hst
  all_goals try simp only [finalSt, Option.some.injEq] at hst
  all_goals try subst hst
  all_goals
    simp_all [finalSt, SRFree, ctxArc, saves_append, restores_append, saves,
      restores, isSave, isRestore, emit]

theorem lineTag_counts (s : SState) (node : Node) :
    CountsEq (lineTag s node) s := by
  intro sF hst
  unfold lineTag at hst
  repeat' split at hst
  all_goals try simp only [finalSt, Option.some.injEq] at hst
  all_goals try subst hst
  all_goals
    simp_all [finalSt, SRFree, ctxMoveTo, ctxLineTo, saves_append,
      restores_append, saves, restores, isSave, isRestore, emit]

theorem textTag_counts (B : Backend) (s : SState) (node : Node) :
    CountsEq (textTag B s node) s := by
  intro sF hst
  unfold textTag at hst
  repeat' (first | split at hst | dsimp only [] at hst)
  all_goals try simp only [finalSt, Option.some.injEq] at hst
  all_goals try subst hst
  all_goals
    simp_all [finalSt, SRFree, ctxMoveTo, saves_append, restores_append, saves,
      restores, isSave, isRestore, emit]

theorem tspanTag_counts (B : Backend) (s : SState) (node : Node) :
    CountsEq (tspanTag B s node) s := by
  intro sF hst
  unfold tspanTag at hst
  repeat' (first | split at hst | dsimp only [] at hst)
  all_goals
    first
    | exact textTag_counts B s _ sF hst
    | (simp only [finalSt, Option.some.injEq] at hst
       subst hst
       exact ⟨rfl, rfl⟩)
    | (simp [finalSt] at hst)

theorem setCtxSize_counts (s : SState) (w h : Option ℚ) (vb : Option Str) :
    CountsEq (setCtxSize s w h vb) s := by
  intro sF hst
  unfold setCtxSize at hst
  repeat' (first | split at hst | dsimp only [] at hst)
  all_goals try simp only [finalSt, Option.some.injEq] at hst
  all_goals try subst hst
  all_goals
    simp_all [finalSt, SRFree, saves_append, restores_append, saves, restores,
      isSave, isRestore, emit]

theorem applyScaleTranslate_srFree {tt : Str} {vals : List (Option ℚ)} {ev : Ev}
    (h : applyScaleTranslate tt vals = .ok ev) :
    isSave ev = false ∧ isRestore ev = false := by
  unfold applyScaleTranslate at h
  repeat' (first | split at h | dsimp only [] at h)
  all_goals cases h
  all_goals exact ⟨rfl, rfl⟩

theorem applyMatrixVals_srFree {vals : List (Option ℚ)} {ev : Ev}
    (h : applyMatrixVals vals = .ok ev) :
    isSave ev = false ∧ isRestore ev = false := by
  unfold applyMatrixVals at h
  repeat' split at h
  all_goals cases h
  all_goals exact ⟨rfl, rfl⟩

theorem segOps_srFree {seg : Str} {evs : List Ev} (h : segOps seg = .ok evs) :
    saves evs = 0 ∧ restores evs = 0 := by
  unfold segOps at h
  repeat' (first | split at h | dsimp only [] at h)
  all_goals try cases h
  all_goals
    first
    | exact ⟨rfl, rfl⟩
    | (rename_i heq
       have hf := applyScaleTranslate_srFree heq
       simp [saves, restores, hf.1, hf.2])
    | (rename_i heq
       have hf := applyMatrixVals_srFree heq
       simp [saves, restores, hf.1, hf.2])

theorem foldl_emit_trace (evs : List Ev) :
    ∀ s : SState, (evs.foldl emit s).trace = s.trace ++ evs := by
  induction evs with
  | nil => intro s; simp
  | cons e rest ih =>
    intro s
    simp only [List.foldl_cons, ih, emit, List.append_assoc, List.singleton_append]

theorem drawTransformSegs_counts :
    ∀ (segs : List Str) (s : SState), CountsEq (drawTransformSegs s segs) s := by
  intro segs
  induction segs with
  | nil =>
    intro s sF hst
    simp only [drawTransformSegs, finalSt, Option.some.injEq] at hst
    subst hst
    exact ⟨rfl, rfl⟩
  | cons seg rest ih =>
    intro s sF hst
    unfold drawTransformSegs at hst
    cases hso : segOps seg with
    | error e =>
      simp only [hso, finalSt, Option.some.injEq] at hst
      subst hst
      exact ⟨rfl, rfl⟩
    | ok evs =>
      simp only [hso] at hst
      have hz := segOps_srFree hso
      have h1 : SRFree s (evs.foldl emit s) := by
        constructor
        · rw [foldl_emit_trace, saves_append]
          omega
        · rw [foldl_emit_trace, restores_append]
          omega
      exact srfree_trans h1 (ih _ sF hst)

theorem srfree_ctxMoveTo (s : SState) (x y : ℚ) : SRFree s (ctxMoveTo s x y) := by
  constructor <;>
    simp [ctxMoveTo, emit, saves_append, restores_append, saves, restores,
      isSave, isRestore]

theorem drawPrelude_counts (s : SState) (node : Node) :
    CountsEq (drawPrelude s node) s := by
  intro sF hst
  unfold drawPrelude at hst
  repeat' (first | split at hst | dsimp only [] at hst)
  all_goals
    first
    | exact srfree_trans (srfree_ctxMoveTo s _ _) (drawTransformSegs_counts _ _ sF hst)
    | (simp only [finalSt, Option.some.injEq] at hst
       subst hst
       first
       | exact ⟨rfl, rfl⟩
       | exact srfree_ctxMoveTo s _ _)

theorem drawPaint_counts (B : Backend) (s : SState) (node : Node) :
    CountsEq (drawPaint B s node) s := by
  intro sF hst
  unfold drawPaint at hst
  repeat' (first | split at hst | dsimp only [] at hst)
  all_goals try simp only [finalSt, Option.some.injEq] at hst
  all_goals try subst hst
  all_goals
    simp_all [SRFree, emit, saves_append, restores_append, saves, restores,
      isSave, isRestore]

theorem keepNode_ge {s : SState} {o : Out Unit} (node : Node)
    (h : CountsGe o s) : CountsGe (keepNode node o) s := by
  intro sF hst
  cases o with
  | ok s1 u =>
    simp only [keepNode, finalSt, Option.some.injEq] at hst
    subst hst
    exact h s1 rfl
  | err s1 e =>
    simp only [keepNode, finalSt, Option.some.injEq] at hst
    subst hst
    exact h s1 rfl
  | fuel => simp [keepNode, finalSt] at hst

theorem srge_refl (s : SState) : SRGe s s := by
  simp only [SRGe]
  omega

theorem srfree_emit_single (s : SState) (e : Ev) (h1 : isSave e = false)
    (h2 : isRestore e = false) : SRFree s (emit s e) := by
  constructor <;>
    simp [emit, saves_append, restores_append, saves, restores, h1, h2]

theorem useTag_ge (B : Backend) (recur : SState → Node → Out Unit)
    (hrec : ∀ s c, CountsGe (recur s c) s) (s : SState) (node : Node) :
    CountsGe (useTag B recur s node) s := by
  intro sF hst
  unfold useTag at hst
  cases hx : size (node.get (str "x")) with
  | error e =>
    simp only [hx, finalSt, Option.some.injEq] at hst
    subst hst
    exact srge_refl s
  | ok xv =>
  simp only [hx] at hst
  cases hy : size (node.get (str "y")) with
  | error e =>
    simp only [hy, finalSt, Option.some.injEq] at hst
    subst hst
    exact srge_refl s
  | ok yv =>
  simp only [hy] at hst
  cases xv with
  | none =>
    cases yv <;>
      (simp only [finalSt, Option.some.injEq] at hst
       subst hst
       exact srge_refl s)
  | some tx =>
  cases yv with
  | none =>
    simp only [finalSt, Option.some.injEq] at hst
    subst hst
    exact srge_refl s
  | some ty =>
  simp only [] at hst
  have hem : SRFree s (emit s (Ev.translate tx ty)) :=
    srfree_emit_single s _ rfl rfl
  cases hhref : (((node.del (str "x")).del (str "y")).get
      (str "{http://www.w3.org/1999/xlink}href")) with
  | none =>
    simp only [hhref, finalSt, Option.some.injEq] at hst
    subst hst
    exact srfree_ge hem
  | some href =>
  simp only [hhref] at hst
  cases hload : B.load href with
  | none =>
    simp only [hload, finalSt, Option.some.injEq] at hst
    subst hst
    exact srfree_ge hem
  | some tree =>
  simp only [hload] at hst
  cases hw : size (tree.get (str "width")) with
  | error e =>
    simp only [hw, finalSt, Option.some.injEq] at hst
    subst hst
    exact srfree_ge hem
  | ok tw =>
  simp only [hw] at hst
  cases hh : size (tree.get (str "height")) with
  | error e =>
    simp only [hh, finalSt, Option.some.injEq] at hst
    subst hst
    exact srfree_ge hem
  | ok th =>
  simp only [hh] at hst
  cases hcs : setCtxSize (emit s (Ev.translate tx ty)) tw th
      (tree.get (str "viewBox")) with
  | err s1 e =>
    simp only [hcs, finalSt, Option.some.injEq] at hst
    subst hst
    exact srfree_srge_trans hem
      (countsEq_ge (setCtxSize_counts _ _ _ _) _ (by rw [hcs]; rfl))
  | fuel =>
    rw [hcs] at hst
    cases hst
  | ok s1 u =>
  simp only [hcs] at hst
  have h1 : SRGe s s1 :=
    srfree_srge_trans hem
      (countsEq_ge (setCtxSize_counts _ _ _ _) _ (by rw [hcs]; rfl))
  cases hr : recur s1 tree with
  | ok s2 u2 =>
    simp only [hr, finalSt, Option.some.injEq] at hst
    subst hst
    exact srge_trans h1 (hrec _ _ _ (by rw [hr]; rfl))
  | err s2 e2 =>
    simp only [hr, finalSt, Option.some.injEq] at hst
    subst hst
    exact srge_trans h1 (hrec _ _ _ (by rw [hr]; rfl))
  | fuel =>
    rw [hr] at hst
    cases hst

/-- Dispatch preserves save/restore counts whenever the tag is not one of
the two re-entrant names (`use` re-renders a loaded tree, a tag named
`draw` re-enters the renderer). -/
theorem drawDispatch_counts (B : Backend) (n : ℕ)
    (recur : SState → Node → Out Unit) (s : SState) (node : Node)
    (huse : node.tag ≠ str "use") (hdraw : node.tag ≠ str "draw") :
    CountsEq (drawDispatch B n recur s node) s := by
  intro sF hst
  unfold drawDispatch at hst
  by_cases h1 : node.tag = str "circle"
  case pos =>
    rw [if_pos h1] at hst
    exact keepNode_counts _ (circleTag_counts s node) sF hst
  rw [if_neg h1] at hst
  by_cases h2 : node.tag = str "path"
  case pos =>
    rw [if_pos h2] at hst
    exact pathTag_counts n s node sF hst
  rw [if_neg h2] at hst
  by_cases h3 : node.tag = str "line"
  case pos =>
    rw [if_pos h3] at hst
    exact keepNode_counts _ (lineTag_counts s node) sF hst
  rw [if_neg h3] at hst
  by_cases h4 : node.tag = str "tspan"
  case pos =>
    rw [if_pos h4] at hst
    exact tspanTag_counts B s node sF hst
  rw [if_neg h4] at hst
  by_cases h5 : node.tag = str "text"
  case pos =>
    rw [if_pos h5] at hst
    exact textTag_counts B s node sF hst
  rw [if_neg h5] at hst
  rw [if_neg huse, if_neg hdraw] at hst
  by_cases h6 : surfaceAttrNames.contains node.tag = true
  case pos =>
    rw [if_pos h6] at hst
    simp only [finalSt, Option.some.injEq] at hst
    subst hst
    exact ⟨rfl, rfl⟩
  rw [if_neg h6] at hst
  by_cases h7 : node.tag = str "cursor_position"
  case pos =>
    rw [if_pos h7] at hst
    split at hst <;>
      (simp only [finalSt, Option.some.injEq] at hst
       subst hst
       exact ⟨rfl, rfl⟩)
  rw [if_neg h7] at hst
  simp only [finalSt, Option.some.injEq] at hst
  subst hst
  exact ⟨rfl, rfl⟩

/-- Dispatch never loses unmatched saves, for any tag, provided the recursive
renderer it may re-enter does not either. -/
theorem drawDispatch_ge (B : Backend) (n : ℕ)
    (recur : SState → Node → Out Unit)
    (hrec : ∀ s c, CountsGe (recur s c) s) (s : SState) (node : Node) :
    CountsGe (drawDispatch B n recur s node) s := by
  intro sF hst
  unfold drawDispatch at hst
  by_cases h1 : node.tag = str "circle"
  case pos =>
    rw [if_pos h1] at hst
    exact countsEq_ge (keepNode_counts _ (circleTag_counts s node)) sF hst
  rw [if_neg h1] at hst
  by_cases h2 : node.tag = str "path"
  case pos =>
    rw [if_pos h2] at hst
    exact countsEq_ge (pathTag_counts n s node) sF hst
  rw [if_neg h2] at hst
  by_cases h3 : node.tag = str "line"
  case pos =>
    rw [if_pos h3] at hst
    exact countsEq_ge (keepNode_counts _ (lineTag_counts s node)) sF hst
  rw [if_neg h3] at hst
  by_cases h4 : node.tag = str "tspan"
  case pos =>
    rw [if_pos h4] at hst
    exact countsEq_ge (tspanTag_counts B s node) sF hst
  rw [if_neg h4] at hst
  by_cases h5 : node.tag = str "text"
  case pos =>
    rw [if_pos h5] at hst
    exact countsEq_ge (textTag_counts B s node) sF hst
  rw [if_neg h5] at hst
  by_cases h6 : node.tag = str "use"
  case pos =>
    rw [if_pos h6] at hst
    exact useTag_ge B recur hrec s node sF hst
  rw [if_neg h6] at hst
  by_cases h7 : node.tag = str "draw"
  case pos =>
    rw [if_pos h7] at hst
    exact keepNode_ge _ (hrec s node) sF hst
  rw [if_neg h7] at hst
  by_cases h8 : surfaceAttrNames.contains node.tag = true
  case pos =>
    rw [if_pos h8] at hst
    simp only [finalSt, Option.some.injEq] at hst
    subst hst
    exact srge_refl s
  rw [if_neg h8] at hst
  by_cases h9 : node.tag = str "cursor_position"
  case pos =>
    rw [if_pos h9] at hst
    split at hst <;>
      (simp only [finalSt, Option.some.injEq] at hst
       subst hst
       exact srge_refl s)
  rw [if_neg h9] at hst
  simp only [finalSt, Option.some.injEq] at hst
  subst hst
  exact srge_refl s

theorem saves_emit_save (s : SState) :
    saves (emit s .save).trace = saves s.trace + 1 := by
  simp [emit, saves_append, saves, isSave]

theorem restores_emit_save (s : SState) :
    restores (emit s .save).trace = restores s.trace := by
  simp [emit, restores_append, restores, isRestore]

theorem saves_emit_restore (s : SState) :
    saves (emit s .restore).trace = saves s.trace := by
  simp [emit, saves_append, saves, isSave]

theorem restores_emit_restore (s : SState) :
    restores (emit s .restore).trace = restores s.trace + 1 := by
  simp [emit, restores_append, restores, isRestore]

theorem srge_of_save {s s' : SState} (h : SRGe (emit s .save) s') : SRGe s s' := by
  rw [SRGe, saves_emit_save, restores_emit_save] at h
  rw [SRGe]
  omega

theorem srgt_of_save {s s' : SState} (h : SRGe (emit s .save) s') : SRGt s s' := by
  rw [SRGe, saves_emit_save, restores_emit_save] at h
  rw [SRGt]
  omega

theorem srge_restore_of_save {s s4 : SState} (h : SRGe (emit s .save) s4) :
    SRGe s (emit s4 .restore) := by
  rw [SRGe, saves_emit_save, restores_emit_save] at h
  rw [SRGe, saves_emit_restore, restores_emit_restore]
  omega

theorem srfree_restore_of_save {s s4 : SState} (h : SRFree (emit s .save) s4) :
    saves (emit s4 .restore).trace = saves s.trace + 1 ∧
    restores (emit s4 .restore).trace = restores s.trace + 1 := by
  rw [SRFree, saves_emit_save, restores_emit_save] at h
  rw [saves_emit_restore, restores_emit_restore]
  omega

theorem foldl_childStep_err (f : SState → Node → Out Unit) (cs : List Node)
    (s : SState) (e : PyErr) :
    cs.foldl (childStep f) (Out.err s e) = Out.err s e := by
  induction cs with
  | nil => rfl
  | cons c rest ih => simp [List.foldl_cons, childStep, ih]

theorem foldl_childStep_fuel (f : SState → Node → Out Unit) (cs : List Node) :
    cs.foldl (childStep f) Out.fuel = Out.fuel := by
  induction cs with
  | nil => rfl
  | cons c rest ih => simp [List.foldl_cons, childStep, ih]

theorem foldl_children_ge (f : SState → Node → Out Unit)
    (hf : ∀ s c, CountsGe (f s c) s) (cs : List Node) :
    ∀ s : SState, CountsGe (cs.foldl (childStep f) (Out.ok s ())) s := by
  induction cs with
  | nil =>
    intro s sF hst
    simp only [List.foldl_nil, finalSt, Option.some.injEq] at hst
    subst hst
    exact srge_refl s
  | cons c rest ih =>
    intro s sF hst
    simp only [List.foldl_cons] at hst
    rw [show childStep f (Out.ok s ()) c = f s c from rfl] at hst
    cases hc : f s c with
    | ok s1 u =>
      cases u
      rw [hc] at hst
      exact srge_trans (hf s c s1 (by rw [hc]; rfl)) (ih s1 sF hst)
    | err s1 e =>
      rw [hc, foldl_childStep_err] at hst
      simp only [finalSt, Option.some.injEq] at hst
      subst hst
      exact hf s c s1 (by rw [hc]; rfl)
    | fuel =>
      rw [hc, foldl_childStep_fuel] at hst
      cases hst

theorem drawFuel_ge (B : Backend) :
    ∀ (n : ℕ) (s : SState) (node : Node), CountsGe (drawFuel B n s node) s := by
  intro n
  induction n with
  | zero =>
    intro s node sF hst
    cases hst
  | succ n ih =>
    intro s node sF hst
    simp only [drawFuel] at hst
    cases hp : drawPrelude (emit s .save) node with
    | err s1 e =>
      simp only [hp, finalSt, Option.some.injEq] at hst
      subst hst
      exact srge_of_save
        (countsEq_ge (drawPrelude_counts _ _) _ (by rw [hp]; rfl))
    | fuel =>
      simp only [hp] at hst
      cases hst
    | ok s1 u =>
      cases u
      simp only [hp] at hst
      have h1 : SRGe (emit s .save) s1 :=
        countsEq_ge (drawPrelude_counts _ _) _ (by rw [hp]; rfl)
      cases hd : drawDispatch B n (drawFuel B n) s1 node with
      | err s2 e =>
        simp only [hd, finalSt, Option.some.injEq] at hst
        subst hst
        exact srge_of_save
          (srge_trans h1 (drawDispatch_ge B n _ ih s1 node _ (by rw [hd]; rfl)))
      | fuel =>
        simp only [hd] at hst
        cases hst
      | ok s2 node2 =>
        simp only [hd] at hst
        have h2 : SRGe (emit s .save) s2 :=
          srge_trans h1 (drawDispatch_ge B n _ ih s1 node _ (by rw [hd]; rfl))
        cases hq : drawPaint B s2 node2 with
        | err s3 e =>
          simp only [hq, finalSt, Option.some.injEq] at hst
          subst hst
          exact srge_of_save
            (srge_trans h2 (countsEq_ge (drawPaint_counts B s2 node2) _ (by rw [hq]; rfl)))
        | fuel =>
          simp only [hq] at hst
          cases hst
        | ok s3 u =>
          cases u
          simp only [hq] at hst
          have h3 : SRGe (emit s .save) s3 :=
            srge_trans h2 (countsEq_ge (drawPaint_counts B s2 node2) _ (by rw [hq]; rfl))
          cases hfo : node.children.foldl (childStep (drawFuel B n)) (Out.ok s3 ()) with
          | err s4 e =>
            simp only [hfo, finalSt, Option.some.injEq] at hst
            subst hst
            exact srge_of_save
              (srge_trans h3 (foldl_children_ge _ ih _ s3 _ (by rw [hfo]; rfl)))
          | fuel =>
            simp only [hfo] at hst
            cases hst
          | ok s4 u =>
            cases u
            simp only [hfo] at hst
            have h4 : SRGe (emit s .save) s4 :=
              srge_trans h3 (foldl_children_ge _ ih _ s3 _ (by rw [hfo]; rfl))
            by_cases hr : node.root = true
            · rw [if_pos hr] at hst
              simp only [finalSt, Option.some.injEq] at hst
              subst hst
              exact srge_of_save h4
            · rw [if_neg hr] at hst
              simp only [finalSt, Option.some.injEq] at hst
              subst hst
              exact srge_restore_of_save h4

theorem drawFuel_err (B : Backend) (n : ℕ) (s : SState) (node : Node)
    (sE : SState) (e : PyErr) (h : drawFuel B n s node = .err sE e) :
    SRGt s sE := by
  cases n with
  | zero => cases h
  | succ n =>
    simp only [drawFuel] at h
    cases hp : drawPrelude (emit s .save) node with
    | err s1 e1 =>
      simp only [hp, Out.err.injEq] at h
      obtain ⟨h1, h2⟩ := h
      subst h1
      exact srgt_of_save
        (countsEq_ge (drawPrelude_counts _ _) _ (by rw [hp]; rfl))
    | fuel =>
      simp only [hp] at h
      cases h
    | ok s1 u =>
      cases u
      simp only [hp] at h
      have h1 : SRGe (emit s .save) s1 :=
        countsEq_ge (drawPrelude_counts _ _) _ (by rw [hp]; rfl)
      cases hd : drawDispatch B n (drawFuel B n) s1 node with
      | err s2 e2 =>
        simp only [hd, Out.err.injEq] at h
        obtain ⟨ha, hb⟩ := h
        subst ha
        exact srgt_of_save
          (srge_trans h1 (drawDispatch_ge B n _ (drawFuel_ge B n) s1 node _ (by rw [hd]; rfl)))
      | fuel =>
        simp only [hd] at h
        cases h
      | ok s2 node2 =>
        simp only [hd] at h
        have h2 : SRGe (emit s .save) s2 :=
          srge_trans h1 (drawDispatch_ge B n _ (drawFuel_ge B n) s1 node _ (by rw [hd]; rfl))
        cases hq : drawPaint B s2 node2 with
        | err s3 e3 =>
          simp only [hq, Out.err.injEq] at h
          obtain ⟨ha, hb⟩ := h
          subst ha
          exact srgt_of_save
            (srge_trans h2 (countsEq_ge (drawPaint_counts B s2 node2) _ (by rw [hq]; rfl)))
        | fuel =>
          simp only [hq] at h
          cases h
        | ok s3 u =>
          cases u
          simp only [hq] at h
          have h3 : SRGe (emit s .save) s3 :=
            srge_trans h2 (countsEq_ge (drawPaint_counts B s2 node2) _ (by rw [hq]; rfl))
          cases hfo : node.children.foldl (childStep (drawFuel B n)) (Out.ok s3 ()) with
          | err s4 e4 =>
            simp only [hfo, Out.err.injEq] at h
            obtain ⟨ha, hb⟩ := h
            subst ha
            exact srgt_of_save
              (srge_trans h3 (foldl_children_ge _ (drawFuel_ge B n) _ s3 _ (by rw [hfo]; rfl)))
          | fuel =>
            simp only [hfo] at h
            cases h
          | ok s4 u =>
            cases u
            simp only [hfo] at h
            by_cases hr : node.root = true
            · rw [if_pos hr] at h
              cases h
            · rw [if_neg hr] at h
              cases h

/-! ### Node counting and the per-node save/restore accounting -/

mutual

/-- Number of nodes in a tree (the node itself and all descendants). -/
def countNodes : Node → ℕ
  | .mk _ _ cs _ _ => 1 + countForest cs

def countForest : List Node → ℕ
  | [] => 0
  | c :: cs => countNodes c + countForest cs

end

mutual

/-- Number of nodes whose `root` flag is false. -/
def countNonRoot : Node → ℕ
  | .mk _ _ cs _ r => (if r then 0 else 1) + countNonRootForest cs

def countNonRootForest : List Node → ℕ
  | [] => 0
  | c :: cs => countNonRoot c + countNonRootForest cs

end

mutual

/-- No node of the tree carries a tag that re-enters the renderer (`use`
loads and draws another tree, a tag literally named `draw` recurses). -/
def goodTree : Node → Bool
  | .mk t _ cs _ _ =>
    !(decide (t = str "use")) && (!(decide (t = str "draw")) && goodForest cs)

def goodForest : List Node → Bool
  | [] => true
  | c :: cs => goodTree c && goodForest cs

end

theorem countNodes_eq (n : Node) :
    countNodes n = 1 + countForest n.children := by
  cases n
  simp [countNodes]

theorem countNonRoot_eq (n : Node) :
    countNonRoot n = (if n.root then 0 else 1) + countNonRootForest n.children := by
  cases n
  simp [countNonRoot]

theorem goodTree_spec {n : Node} (h : goodTree n = true) :
    ¬(n.tag = str "use") ∧ ¬(n.tag = str "draw") ∧ goodForest n.children = true := by
  cases n with
  | mk t a cs tx r =>
    simp only [goodTree, Bool.and_eq_true, Bool.not_eq_true',
      decide_eq_false_iff_not] at h
    exact ⟨h.1, h.2.1, h.2.2⟩

theorem goodForest_cons {c : Node} {cs : List Node}
    (h : goodForest (c :: cs) = true) :
    goodTree c = true ∧ goodForest cs = true := by
  simp only [goodForest, Bool.and_eq_true] at h
  exact h

theorem countForest_cons (c : Node) (cs : List Node) :
    countForest (c :: cs) = countNodes c + countForest cs := by
  simp [countForest]

theorem countNonRootForest_cons (c : Node) (cs : List Node) :
    countNonRootForest (c :: cs) = countNonRoot c + countNonRootForest cs := by
  simp [countNonRootForest]

/-- On success, `drawFuel` adds exactly one `save` per node of the tree and
one `restore` per non-root node (trees that do not re-enter the renderer). -/
theorem drawFuel_sizes (B : Backend) :
    ∀ (n : ℕ) (s : SState) (node : Node) (sF : SState),
      goodTree node = true → drawFuel B n s node = .ok sF () →
      saves sF.trace = saves s.trace + countNodes node ∧
      restores sF.trace = restores s.trace + countNonRoot node := by
  intro n
  induction n with
  | zero =>
    intro s node sF hg hst
    cases hst
  | succ n ih =>
    have hforest : ∀ (cs : List Node), goodForest cs = true →
        ∀ (s sF : SState),
          cs.foldl (childStep (drawFuel B n)) (Out.ok s ()) = .ok sF () →
          saves sF.trace = saves s.trace + countForest cs ∧
          restores sF.trace = restores s.trace + countNonRootForest cs := by
      intro cs
      induction cs with
      | nil =>
        intro hg s sF h
        simp only [List.foldl_nil, Out.ok.injEq] at h
        obtain ⟨h1, -⟩ := h
        subst h1
        simp [countForest, countNonRootForest]
      | cons c rest ihc =>
        intro hg s sF h
        obtain ⟨hgc, hgr⟩ := goodForest_cons hg
        simp only [List.foldl_cons] at h
        rw [show childStep (drawFuel B n) (Out.ok s ()) c = drawFuel B n s c from rfl] at h
        cases hc : drawFuel B n s c with
        | ok s1 u =>
          cases u
          rw [hc] at h
          have hchild := ih s c s1 hgc hc
          have hrest := ihc hgr s1 sF h
          have hcf := countForest_cons c rest
          have hcn := countNonRootForest_cons c rest
          omega
        | err s1 e =>
          rw [hc, foldl_childStep_err] at h
          cases h
        | fuel =>
          rw [hc, foldl_childStep_fuel] at h
          cases h
    intro s node sF hg hst
    obtain ⟨hu, hd, hgf⟩ := goodTree_spec hg
    simp only [drawFuel] at hst
    cases hp : drawPrelude (emit s .save) node with
    | err s1 e =>
      simp only [hp] at hst
      cases hst
    | fuel =>
      simp only [hp] at hst
      cases hst
    | ok s1 u =>
      cases u
      simp only [hp] at hst
      have h1 : SRFree (emit s .save) s1 :=
        drawPrelude_counts _ _ _ (by rw [hp]; rfl)
      cases hdi : drawDispatch B n (drawFuel B n) s1 node with
      | err s2 e =>
        simp only [hdi] at hst
        cases hst
      | fuel =>
        simp only [hdi] at hst
        cases hst
      | ok s2 node2 =>
        simp only [hdi] at hst
        have h2 : SRFree s1 s2 :=
          drawDispatch_counts B n _ s1 node hu hd _ (by rw [hdi]; rfl)
        cases hq : drawPaint B s2 node2 with
        | err s3 e =>
          simp only [hq] at hst
          cases hst
        | fuel =>
          simp only [hq] at hst
          cases hst
        | ok s3 u =>
          cases u
          simp only [hq] at hst
          have h3 : SRFree s2 s3 :=
            drawPaint_counts B s2 node2 _ (by rw [hq]; rfl)
          cases hfo : node.children.foldl (childStep (drawFuel B n)) (Out.ok s3 ()) with
          | err s4 e =>
            simp only [hfo] at hst
            cases hst
          | fuel =>
            simp only [hfo] at hst
            cases hst
          | ok s4 u =>
            cases u
            simp only [hfo] at hst
            have h4 := hforest node.children hgf s3 s4 hfo
            have hsv := saves_emit_save s
            have hrs := restores_emit_save s
            have hcn := countNodes_eq node
            have hcr := countNonRoot_eq node
            obtain ⟨h1a, h1b⟩ := h1
            obtain ⟨h2a, h2b⟩ := h2
            obtain ⟨h3a, h3b⟩ := h3
            obtain ⟨h4a, h4b⟩ := h4
            by_cases hr : node.root = true
            · rw [if_pos hr] at hst
              simp only [Out.ok.injEq] at hst
              obtain ⟨hse, -⟩ := hst
              subst hse
              rw [hr, if_pos rfl] at hcr
              omega
            · rw [if_neg hr] at hst
              simp only [Out.ok.injEq] at hst
              obtain ⟨hse, -⟩ := hst
              subst hse
              have hb : node.root = false := by
                cases hrv : node.root
                · rfl
                · exact absurd hrv hr
              rw [hb] at hcr
              simp only [Bool.false_eq_true, if_neg, if_false] at hcr
              have hsv4 := saves_emit_restore s4
              have hrs4 := restores_emit_restore s4
              omega

/-! ### Unhandled path commands, smooth-curve reflection, the text cursor -/

/-- The command letters the path interpreter's `elif` chain handles
(`z`/`Z` through the `letter.lower() == "z"` test). -/
def c5Handled : List Char := ['m', 'M', 'l', 'L', 'h', 'v', 'V', 'c', 'C', 's', 'S', 'z', 'Z', 'X']

theorem toLower_eq_z {l : Char} (h : l.toLower = 'z') : l = 'z' ∨ l = 'Z' := by
  unfold Char.toLower at h
  dsimp only [] at h
  split at h
  case isTrue hr =>
    obtain ⟨h1, h2⟩ := hr
    obtain ⟨n, hn⟩ : ∃ n, l.toNat = n := ⟨_, rfl⟩
    rw [hn] at h h1 h2
    have hof := Char.ofNat_toNat l
    rw [hn] at hof
    interval_cases n <;>
      first
      | exact absurd h (by decide)
      | (right
         exact hof.symm.trans (by decide))
  case isFalse => exact Or.inl h

theorem singleton_ne_of_not_mem {l c : Char} (h : l ∉ c5Handled)
    (hc : c ∈ c5Handled) : ¬([l] = [c]) := by
  intro he
  injection he with h1 _
  exact h (h1 ▸ hc)

/-- Any single-character command outside the handled set falls through the
whole `elif` chain to `raise NotImplementedError` (line 295). -/
theorem piStep_unhandled (s : SState) (string : Str) (l : Char) (L : PathLocals)
    (h : l ∉ c5Handled) :
    piStep s string [l] L = .err s .notImplementedError := by
  have hz : ¬(pyLower [l] = str "z") := by
    intro he
    have h0 : pyLower [l] = [l.toLower] := rfl
    have h0z : str "z" = ['z'] := rfl
    rw [h0, h0z] at he
    injection he with h1 _
    rcases toLower_eq_z h1 with h2 | h2 <;> exact h (by rw [h2]; decide)
  unfold piStep
  rw [if_neg (show ¬([l] = str "c") from singleton_ne_of_not_mem h (by decide : 'c' ∈ c5Handled)),
      if_neg (show ¬([l] = str "C") from singleton_ne_of_not_mem h (by decide : 'C' ∈ c5Handled)),
      if_neg (show ¬([l] = str "h") from singleton_ne_of_not_mem h (by decide : 'h' ∈ c5Handled)),
      if_neg (show ¬([l] = str "V") from singleton_ne_of_not_mem h (by decide : 'V' ∈ c5Handled)),
      if_neg (show ¬([l] = str "l") from singleton_ne_of_not_mem h (by decide : 'l' ∈ c5Handled)),
      if_neg (show ¬([l] = str "L") from singleton_ne_of_not_mem h (by decide : 'L' ∈ c5Handled)),
      if_neg (show ¬([l] = str "m") from singleton_ne_of_not_mem h (by decide : 'm' ∈ c5Handled)),
      if_neg (show ¬([l] = str "M") from singleton_ne_of_not_mem h (by decide : 'M' ∈ c5Handled)),
      if_neg (show ¬([l] = str "S") from singleton_ne_of_not_mem h (by decide : 'S' ∈ c5Handled)),
      if_neg (show ¬([l] = str "s") from singleton_ne_of_not_mem h (by decide : 's' ∈ c5Handled)),
      if_neg (show ¬([l] = str "v") from singleton_ne_of_not_mem h (by decide : 'v' ∈ c5Handled)),
      if_neg (show ¬([l] = str "X") from singleton_ne_of_not_mem h (by decide : 'X' ∈ c5Handled)),
      if_neg hz]

/-- The `s`-branch control-point reflection (lines 274-275) with assigned
curve locals: `x3 - x2` exactly when the previous letter is a substring of
`"cs"`, the fallback value otherwise. -/
theorem reflectCtrl_eq (ll : Str) (q3 q2 fb : ℚ) :
    reflectCtrl (str "cs") (some ll) (some (some q3)) (some (some q2)) fb =
      .ok (if containsSub ll (str "cs") then q3 - q2 else fb) := by
  cases hcs : containsSub ll (str "cs") <;> simp [reflectCtrl, hcs]

/-- Reading `self.cursor_position` before any `text` handler has set it
raises `AttributeError` (line 309), whatever attributes the node carries. -/
theorem tspanTag_no_cursor (B : Backend) (s : SState) (node : Node)
    (h : s.cursor = none) : tspanTag B s node = .err s .attributeError := by
  unfold tspanTag
  rw [h]

/-- Whenever the `text` handler succeeds it ends by recording the backend's
current point in the shared cursor (line 360). -/
theorem textTag_sets_cursor (B : Backend) (s : SState) (node : Node)
    (s' : SState) (n' : Node) (h : textTag B s node = .ok s' n') :
    s'.cursor = some ((s'.cp).getD (0, 0)) := by
  unfold textTag at h
  repeat' (first | split at h | dsimp only [] at h)
  all_goals cases h
  all_goals rfl

/-! ### Concrete documents for closed renders -/

/-- A document that is just a root element. -/
def rootOnly : Node := ⟨str "g", [], [], none, true⟩

/-- A root with one ordinary child group. -/
def rootG : Node := ⟨str "svg", [], [⟨str "g", [], [], none, false⟩], none, true⟩

/-- A root whose path child uses the unhandled `A` (elliptical arc) command. -/
def rootPathA : Node :=
  ⟨str "svg", [], [⟨str "path", [(str "d", str "A 1 2")], [], none, false⟩], none, true⟩

/-- A root whose first drawn child is a tspan with explicit `x` and `y`. -/
def rootTspan : Node :=
  ⟨str "svg", [], [⟨str "tspan", [(str "x", str "1"), (str "y", str "2")], [], none, false⟩],
    none, true⟩

/-- A path node whose data exercises `c` followed by smooth `s`. -/
def nodeD : Node :=
  ⟨str "path", [(str "d", str "M0 0 c1 1 2 2 3 3 s 4 4 5 5")], [], none, false⟩

/-- A text node with explicit coordinates and text. -/
def textNode : Node :=
  ⟨str "text", [(str "x", str "0"), (str "y", str "0")], [], some (str "hi"), false⟩

/-- Claim C1: the spec says draw issues one save per non-root node, with a
matching restore on every exit path and no save left unmatched. In the code
the save (line 145) is unconditional — the root saves too — and the restore
(line 197) runs only for non-root nodes and only on the success path, with
no exception handler. Corrected accounting, proved here: a successful
render of a tree that does not re-enter the renderer adds exactly one save
per node (root included) and one restore per non-root node, and a render
that propagates an error leaves strictly more saves than restores. -/
theorem claim_C1 :
    (∀ (B : Backend) (n : ℕ) (s : SState) (node : Node) (sF : SState),
      goodTree node = true → drawFuel B n s node = .ok sF () →
      saves sF.trace = saves s.trace + countNodes node ∧
      restores sF.trace = restores s.trace + countNonRoot node) ∧
    (∀ (B : Backend) (n : ℕ) (s : SState) (node : Node) (sE : SState) (e : PyErr),
      drawFuel B n s node = .err sE e →
      saves sE.trace + restores s.trace > restores sE.trace + saves s.trace) :=
  ⟨fun B => drawFuel_sizes B, fun B n s node sE e h => drawFuel_err B n s node sE e h⟩

/-- Claim C1 counterexample: rendering a document that is only a root node
succeeds with one save and zero restores — the spec's "one save per
non-root node" (here zero non-root nodes) and "no save left unmatched
after draw returns" are both false of the code. -/
theorem claim_C1_counterexample :
    (okState (drawFuel trivialBackend 9 initState rootOnly)).map
        (fun s => (saves s.trace, restores s.trace)) = some (1, 0) ∧
    countNonRoot rootOnly = 0 := by
  constructor
  · with_unfolding_all rfl
  · rfl

/-- Claim C1 witness: the corrected accounting evaluated on a two-node
document (2 saves, 1 restore) and the strict save surplus on an erroring
render. -/
theorem claim_C1_witness :
    goodTree rootG = true ∧
    (∃ sF, drawFuel trivialBackend 9 initState rootG = .ok sF () ∧
      saves sF.trace = saves initState.trace + countNodes rootG ∧
      restores sF.trace = restores initState.trace + countNonRoot rootG) ∧
    (∃ sE, drawFuel trivialBackend 9 initState rootPathA = .err sE .notImplementedError ∧
      saves sE.trace + restores initState.trace >
        restores sE.trace + saves initState.trace) := by
  have hg : goodTree rootG = true := rfl
  obtain ⟨sF, hok⟩ : ∃ sF, drawFuel trivialBackend 9 initState rootG = .ok sF () :=
    ⟨_, by with_unfolding_all rfl⟩
  obtain ⟨sE, herr⟩ :
      ∃ sE, drawFuel trivialBackend 9 initState rootPathA = .err sE .notImplementedError :=
    ⟨_, by with_unfolding_all rfl⟩
  have h1 := claim_C1.1 trivialBackend 9 initState rootG sF hg hok
  have h2 := claim_C1.2 trivialBackend 9 initState rootPathA sE _ herr
  exact ⟨hg, ⟨sF, hok, h1.1, h1.2⟩, ⟨sE, herr, h2⟩⟩

/-- Claim C5: every command letter outside the handled set
{m,M,l,L,h,v,V,c,C,s,S,z,Z,X} makes the path interpreter raise the
unsupported-command error (`NotImplementedError`), and for a document whose
path child carries `d="A 1 2"` that error propagates out of the whole
render, uncaught. -/
theorem claim_C5 :
    (∀ (s : SState) (string : Str) (l : Char) (L : PathLocals),
      l ∉ c5Handled → piStep s string [l] L = .err s .notImplementedError) ∧
    errOf (drawFuel trivialBackend 9 initState rootPathA) = some .notImplementedError :=
  ⟨piStep_unhandled, by with_unfolding_all rfl⟩

/-- Claim C5 witness: the elliptical-arc letter `A` is outside the handled
set and `piStep` raises on it. -/
theorem claim_C5_witness :
    'A' ∉ c5Handled ∧
    piStep initState (str "1 2") ['A'] initLocals =
      .err initState .notImplementedError :=
  ⟨by decide, claim_C5.1 initState (str "1 2") 'A' initLocals (by decide)⟩

/-- Claim C6: the lowercase `s` command's first control point is the
reflection `x3 - x2` exactly when the previous letter occurs in `"cs"`
(`c` and `s` do, `C` and `M` do not) and the fallback (0 for `s`)
otherwise; on `d = "M0 0 c1 1 2 2 3 3 s 4 4 5 5"` the `s` command becomes
`rel_curve_to` with first control point (1, 1) = (3-2, 3-2). -/
theorem claim_C6 :
    (∀ (ll : Str) (q3 q2 fb : ℚ),
      reflectCtrl (str "cs") (some ll) (some (some q3)) (some (some q2)) fb =
        .ok (if containsSub ll (str "cs") then q3 - q2 else fb)) ∧
    containsSub (str "c") (str "cs") = true ∧
    containsSub (str "s") (str "cs") = true ∧
    containsSub (str "C") (str "cs") = false ∧
    containsSub (str "M") (str "cs") = false ∧
    (okState (pathTag 99 initState nodeD)).map SState.trace =
      some [.move_to 0 0, .rel_curve_to 1 1 2 2 3 3, .rel_curve_to 1 1 4 4 5 5] :=
  ⟨reflectCtrl_eq, by decide, by decide, by decide, by decide,
    by with_unfolding_all rfl⟩

/-- Claim C10: drawing a tspan before any text node fails with
`AttributeError` — the shared cursor is read first, before the explicit
`x`/`y` attributes are even consulted — and only a successful `text`
handler brings the cursor into existence, recording the backend's current
point; a whole-document render whose first drawn child is a tspan with
explicit `x` and `y` fails that way from the fresh initial state. -/
theorem claim_C10 :
    (∀ (B : Backend) (s : SState) (node : Node),
      s.cursor = none → tspanTag B s node = .err s .attributeError) ∧
    (∀ (B : Backend) (s : SState) (node : Node) (s' : SState) (n' : Node),
      textTag B s node = .ok s' n' → s'.cursor = some ((s'.cp).getD (0, 0))) ∧
    initState.cursor = none ∧
    errOf (drawFuel trivialBackend 9 initState rootTspan) = some .attributeError :=
  ⟨tspanTag_no_cursor, textTag_sets_cursor, rfl, by with_unfolding_all rfl⟩

/-- Claim C10 witness: the cursorless failure and the cursor-recording
success, each at a concrete input. -/
theorem claim_C10_witness :
    tspanTag trivialBackend initState rootTspan = .err initState .attributeError ∧
    (∃ sT nT, textTag trivialBackend initState textNode = .ok sT nT ∧
      sT.cursor = some ((sT.cp).getD (0, 0))) := by
  obtain ⟨sT, nT, hT⟩ :
      ∃ sT nT, textTag trivialBackend initState textNode = .ok sT nT :=
    ⟨_, _, by with_unfolding_all rfl⟩
  exact ⟨claim_C10.1 trivialBackend initState rootTspan rfl,
    ⟨sT, nT, hT, claim_C10.2.1 trivialBackend initState textNode sT nT hT⟩⟩

end CairoSVG
